import Mathlib

/-!
Verification development for the playheads music-agent backend.

This file gives a shallow embedding, in Lean, of the session-state model,
the agent tool surface, the session store (persistence/hydration), the
title-generation background task, and the streaming chat turn of the
backend (`apps/backend/state.py`, `apps/backend/agent.py`,
`apps/backend/main.py`, `apps/backend/title_generator.py`), and proves the
behavioural properties stated about them.

Modelling conventions:
- JSON documents are the inductive `Json`; Python floats that travel
  through JSON are modelled as rationals (their serialisation round-trips
  exactly), and ISO-8601 datetime strings are modelled by the dedicated
  constructor `Json.dt` carrying the instant as a natural number.
- Python string ids (UUIDs) are plain strings; endpoints only pass valid
  UUIDs, so UUID parsing is not re-modelled.
- A tool's input string for a 1-indexed position is modelled by the result
  of Python `int()`: `none` when the string is non-numeric.
-/

/-- A JSON value.  `dt` marks an ISO-8601 datetime string (the instant is
kept abstract as a natural number); `num` is a float modelled as a
rational. -/
inductive Json where
  | null : Json
  | bool : Bool → Json
  | int : Int → Json
  | num : Rat → Json
  | str : String → Json
  | dt : Nat → Json
  | arr : List Json → Json
  | obj : List (String × Json) → Json

/-- Look up a key in a JSON object (Python dict access); `none` when the
value is not an object or the key is absent. -/
def Json.getField : Json → String → Option Json
  | .obj kvs, k => kvs.lookup k
  | _, _ => none

/-- Python truthiness of a JSON value (`bool(x)`). -/
def Json.pyTruthy : Json → Bool
  | .null => false
  | .bool b => b
  | .int n => n != 0
  | .num q => q != 0
  | .str s => s ≠ ""
  | .dt _ => true
  | .arr xs => !xs.isEmpty
  | .obj kvs => !kvs.isEmpty

/-- Whether a JSON value is the empty object (Python `x == {}`). -/
def Json.isEmptyObj : Json → Bool
  | .obj [] => true
  | _ => false

/-- `TrackInfo` from `apps/backend/state.py`: a music track. -/
structure TrackInfo where
  id : String
  name : String
  artist : String
  album : Option String := none
  artwork_url : Option String := none
  duration : Option Rat := none
deriving DecidableEq, Repr

/-- A part of a multi-part message is a Python dict (pydantic validates
`parts` as `list[dict]`). -/
abbrev PartDict : Type := List (String × Json)

/-- `Message` from `apps/backend/state.py`: a chat message, either plain
`content` or multi-part `parts`; the timestamp is the abstract instant. -/
structure Message where
  role : String
  content : Option String := none
  parts : Option (List PartDict) := none
  timestamp : Nat := 0

/-- `SessionState` from `apps/backend/state.py`: the per-conversation
aggregate. -/
structure SessionState where
  session_id : String
  chat_history : List Message := []
  current_track : Option TrackInfo := none
  playlist : List TrackInfo := []
  is_playing : Bool := false
  playback_position : Rat := 0
  last_sync : Nat := 0

/-- `SessionState.add_message`; `now` is the instant `datetime.now()`
used as the new message's timestamp. -/
def SessionState.add_message (s : SessionState) (role : String)
    (content : Option String) (parts : Option (List PartDict))
    (now : Nat) : SessionState :=
  { s with chat_history := s.chat_history ++ [⟨role, content, parts, now⟩] }

/-- An `action` event written by a tool through `get_stream_writer`:
`{"event": "action", "data": {"type": type, "data": data}}`. -/
structure ActionEvent where
  type : String
  data : Json

/-- Dummy track used as the (never taken) default of an in-range list
access. -/
def dummyTrack : TrackInfo := ⟨"", "", "", none, none, none⟩

/-- The action payload emitted by `play_track` and `skip_next`:
`{"type": "play_track", "data": {"index": i}}`. -/
def playTrackAction (i : Int) : ActionEvent :=
  ⟨"play_track", Json.obj [("index", Json.int i)]⟩

/-- The action payload emitted by `remove_from_playlist`:
`{"type": "remove_track", "data": {"index": i}}`. -/
def removeTrackAction (i : Int) : ActionEvent :=
  ⟨"remove_track", Json.obj [("index", Json.int i)]⟩

/-- `play_track` from `apps/backend/agent.py` (lines 130-166).  `session`
is the ambient `_session_context` value and `parsed` the result of
`int(index)` (`none` when `int` raises).  Returns the tool's text together
with the action written to the stream, if any. -/
def play_track (session : Option SessionState) (parsed : Option Int) :
    String × Option ActionEvent :=
  match parsed with
  | none => ("Please provide a valid track number.", none)
  | some idx =>
    match session with
    | none => ("The playlist is empty. Add some tracks first!", none)
    | some s =>
      if s.playlist.isEmpty then
        ("The playlist is empty. Add some tracks first!", none)
      else if idx < 1 || idx > (s.playlist.length : Int) then
        ("Invalid track number. Please choose between 1 and " ++
            toString s.playlist.length ++ ".", none)
      else
        let track := s.playlist.getD (idx - 1).toNat dummyTrack
        ("Requesting to play '" ++ track.name ++ "' by " ++ track.artist,
         some (playTrackAction (idx - 1)))

/-- `skip_next` from `apps/backend/agent.py` (lines 169-201). -/
def skip_next (session : Option SessionState) : String × Option ActionEvent :=
  match session with
  | none => ("There's no playlist to skip through.", none)
  | some s =>
    if s.playlist.isEmpty then
      ("There's no playlist to skip through.", none)
    else
      let current_idx : Int :=
        match s.current_track with
        | none => -1
        | some c =>
          match s.playlist.findIdx? (fun t => t.id == c.id) with
          | some i => (i : Int)
          | none => -1
      let next_idx := current_idx + 1
      if next_idx ≥ (s.playlist.length : Int) then
        ("You're already at the last track in the playlist.", none)
      else
        let t := s.playlist.getD next_idx.toNat dummyTrack
        ("Requesting to skip to '" ++ t.name ++ "' by " ++ t.artist,
         some (playTrackAction next_idx))

/-- `remove_from_playlist` from `apps/backend/agent.py` (lines 257-294).
The source only reads the session (the comment there says the track is
kept "without removing it from local state"), so the embedding returns
the session unchanged as its third component. -/
def remove_from_playlist (session : Option SessionState) (parsed : Option Int) :
    String × Option ActionEvent × Option SessionState :=
  match parsed with
  | none => ("Please provide a valid track number.", none, session)
  | some idx =>
    match session with
    | none => ("The playlist is empty.", none, session)
    | some s =>
      if s.playlist.isEmpty then
        ("The playlist is empty.", none, session)
      else if idx < 1 || idx > (s.playlist.length : Int) then
        ("Invalid track number. Please choose between 1 and " ++
            toString s.playlist.length ++ ".", none, session)
      else
        let track_to_remove := s.playlist.getD (idx - 1).toNat dummyTrack
        ("Requesting to remove '" ++ track_to_remove.name ++ "' by " ++
            track_to_remove.artist ++ " from playlist",
         some (removeTrackAction (idx - 1)), session)

-- ============================================================
-- Session store: database rows, serialization, hydration
-- ============================================================

/-- Row of the `conversations` table (`apps/backend/models.py`). -/
structure ConvRow where
  id : String
  user_id : String
  title : Option String := none
  message_count : Int := 0
  last_message_preview : Option String := none
  last_message_at : Option Nat := none
  is_pinned : Bool := false
  is_archived : Bool := false
  updated_at : Nat := 0

/-- Row of the `conversation_states` table (`apps/backend/models.py`). -/
structure StateRow where
  conversation_id : String
  messages : List Json := []
  context : Json := Json.obj []
  last_synced_at : Option Nat := none

/-- The database: the two tables the session store touches. -/
structure DB where
  conversations : List ConvRow := []
  states : List StateRow := []

/-- SQLAlchemy `scalar_one_or_none`: `none` for zero rows; several rows
raise `MultipleResultsFound`, which the caller's `except` turns into the
same not-found result. -/
def scalarOneOrNone {α : Type} : List α → Option α
  | [x] => some x
  | _ => none

/-- Serialise an optional string as JSON (pydantic `model_dump`). -/
def optStrJson : Option String → Json
  | none => Json.null
  | some s => Json.str s

/-- Serialise an optional float as JSON. -/
def optNumJson : Option Rat → Json
  | none => Json.null
  | some q => Json.num q

/-- `TrackInfo.model_dump(mode='json')`. -/
def dumpTrack (t : TrackInfo) : Json :=
  Json.obj [("id", Json.str t.id), ("name", Json.str t.name),
            ("artist", Json.str t.artist), ("album", optStrJson t.album),
            ("artwork_url", optStrJson t.artwork_url),
            ("duration", optNumJson t.duration)]

/-- `Message.model_dump(mode='json')`: the timestamp serialises to an
ISO-8601 string (`Json.dt`). -/
def dumpMessage (m : Message) : Json :=
  Json.obj [("role", Json.str m.role), ("content", optStrJson m.content),
            ("parts", match m.parts with
                      | none => Json.null
                      | some ps => Json.arr (ps.map Json.obj)),
            ("timestamp", Json.dt m.timestamp)]

/-- The `context` blob written by `SessionStore.update_session`. -/
def dumpContext (s : SessionState) : Json :=
  Json.obj [("is_playing", Json.bool s.is_playing),
            ("playback_position", Json.num s.playback_position),
            ("current_track", match s.current_track with
                              | none => Json.null
                              | some t => dumpTrack t),
            ("playlist", Json.arr (s.playlist.map dumpTrack))]

/-- Parse a required string field (pydantic validation of `str`). -/
def parseStrField : Option Json → Option String
  | some (Json.str s) => some s
  | _ => none

/-- Parse an `Optional[str]` field: an absent key or `null` is `None`. -/
def parseOptStrField : Option Json → Option (Option String)
  | none => some none
  | some Json.null => some none
  | some (Json.str s) => some (some s)
  | some _ => none

/-- Parse an `Optional[float]` field (pydantic coerces ints). -/
def parseOptNumField : Option Json → Option (Option Rat)
  | none => some none
  | some Json.null => some none
  | some (Json.num q) => some (some q)
  | some (Json.int n) => some (some (n : Rat))
  | some _ => none

/-- `TrackInfo(**t)`: pydantic validation of a track dict; `none` models
the raised `ValidationError`. -/
def parseTrack (j : Json) : Option TrackInfo := do
  let id ← parseStrField (j.getField "id")
  let name ← parseStrField (j.getField "name")
  let artist ← parseStrField (j.getField "artist")
  let album ← parseOptStrField (j.getField "album")
  let artwork_url ← parseOptStrField (j.getField "artwork_url")
  let duration ← parseOptNumField (j.getField "duration")
  pure ⟨id, name, artist, album, artwork_url, duration⟩

/-- Validate a list of part values as dicts (`list[dict]`). -/
def parsePartList : List Json → Option (List PartDict)
  | [] => some []
  | Json.obj kvs :: rest => (parsePartList rest).map (kvs :: ·)
  | _ :: _ => none

/-- Parse the `parts` field: `null`/absent is `None`, a list must consist
of dicts (`list[dict]`). -/
def parsePartsField : Option Json → Option (Option (List PartDict))
  | none => some none
  | some Json.null => some none
  | some (Json.arr xs) => (parsePartList xs).map some
  | some _ => none

/-- Parse the `timestamp` field: an ISO-8601 datetime string; an absent
key falls back to the field's `datetime.now()` default, modelled as
instant 0. -/
def parseTimestampField : Option Json → Option Nat
  | none => some 0
  | some (Json.dt n) => some n
  | some _ => none

/-- `Message(**m)`: pydantic validation of a message dict. -/
def parseMessage (j : Json) : Option Message := do
  let role ← parseStrField (j.getField "role")
  let content ← parseOptStrField (j.getField "content")
  let parts ← parsePartsField (j.getField "parts")
  let timestamp ← parseTimestampField (j.getField "timestamp")
  pure ⟨role, content, parts, timestamp⟩

/-- Parse a list of serialized tracks (`[TrackInfo(**t) for t in ...]`). -/
def parseTrackList : List Json → Option (List TrackInfo)
  | [] => some []
  | j :: rest => do
    let t ← parseTrack j
    let ts ← parseTrackList rest
    pure (t :: ts)

/-- Parse a list of serialized messages (`[Message(**m) for m in ...]`). -/
def parseMessageList : List Json → Option (List Message)
  | [] => some []
  | j :: rest => do
    let m ← parseMessage j
    let ms ← parseMessageList rest
    pure (m :: ms)

/-- `SessionStore._hydrate_session` (`apps/backend/state.py` lines
200-227): convert a `conversation_states` row to a `SessionState`.
`none` models a raised validation error (the caller catches it and
reports not-found). -/
def hydrate_session (row : StateRow) (session_id : String) : Option SessionState := do
  let ctx := if row.context.pyTruthy then row.context else Json.obj []
  let current_track ←
    match ctx.getField "current_track" with
    | some j =>
      if j.pyTruthy then (parseTrack j).map some else some none
    | none => some none
  let playlist ←
    match ctx.getField "playlist" with
    | some (Json.arr xs) => if xs.isEmpty then some [] else parseTrackList xs
    | some j => if j.pyTruthy then none else some []
    | none => some []
  let chat_history ←
    if row.messages.isEmpty then some [] else parseMessageList row.messages
  let is_playing ←
    match ctx.getField "is_playing" with
    | none => some false
    | some (Json.bool b) => some b
    | some _ => none
  let playback_position ←
    match ctx.getField "playback_position" with
    | none => some (0 : Rat)
    | some (Json.num q) => some q
    | some (Json.int n) => some ((n : Rat))
    | some _ => none
  pure ⟨session_id, chat_history, current_track, playlist, is_playing,
        playback_position, row.last_synced_at.getD 0⟩

/-- `SessionStore.get_session` (`apps/backend/state.py` lines 92-144).
`uid?` is the optional owner id: `if user_id:` skips the owner check for
`None` and for the empty string.  `dbErr` models a storage exception
during the query; every exception is caught and treated as
not-found. -/
def get_session (db : DB) (session_id : String) (uid? : Option String)
    (dbErr : Bool) : Option SessionState :=
  if dbErr then none
  else
    let convs := db.conversations.filter fun c =>
      c.id == session_id &&
        (match uid? with
         | some uid => if uid = "" then true else c.user_id == uid
         | none => true)
    let sts := db.states.filter fun st => st.conversation_id == session_id
    let joined := sts.flatMap fun st => convs.map fun _ => st
    match scalarOneOrNone joined with
    | none => none
    | some st => hydrate_session st session_id

/-- `SessionStore.create_session` (`apps/backend/state.py` lines
146-198): insert-if-absent on the conversation row, then on the state
row, then retrieve.  A failed retrieval raises; the `except` block's
recovery re-fetch is the same `get_session` call, so a `none` second
component models the propagated exception. -/
def create_session (db : DB) (session_id : String) (user_id : String) :
    DB × Option SessionState :=
  let db1 :=
    if db.conversations.any (fun c => c.id == session_id) then db
    else { db with conversations := db.conversations ++
            [{ id := session_id, user_id := user_id, title := none,
               message_count := 0 }] }
  let db2 :=
    if db1.states.any (fun st => st.conversation_id == session_id) then db1
    else { db1 with states := db1.states ++
            [{ conversation_id := session_id, messages := [],
               context := Json.obj [] }] }
  (db2, get_session db2 session_id (some user_id) false)

/-- Read a part dict's value as a string, defaulting to `""` (the parts
built by the agent always carry string contents). -/
def partGetStr (p : PartDict) (k : String) : String :=
  match p.lookup k with
  | some (Json.str s) => s
  | _ => ""

/-- Whether a part dict has `type == "text"`. -/
def partIsText (p : PartDict) : Bool :=
  match p.lookup "type" with
  | some (Json.str t) => t == "text"
  | _ => false

/-- The `last_message_preview` computed by `update_session` from the last
message (lines 270-285 of `apps/backend/state.py`). -/
def previewOf (m : Message) : String :=
  let contentTruthy := match m.content with | some c => c != "" | none => false
  let partsTruthy := match m.parts with | some ps => !ps.isEmpty | none => false
  if contentTruthy then (m.content.getD "").take 100
  else if partsTruthy then
    let combined :=
      String.join (((m.parts.getD []).filter partIsText).map
        (fun p => partGetStr p "content"))
    if combined = "" then "..." else combined.take 100
  else "..."

/-- A scheduled title-generation background task
(`asyncio.create_task(self._generate_and_update_title(...))`). -/
structure TitleTask where
  session_uuid : String
  messages_data : List Json
  message_count : Int

/-- The `ConversationState` upsert inside `update_session`
(`insert ... on_conflict_do_update(index_elements=['conversation_id'])`). -/
def upsert_state_row (db : DB) (sid : String) (messages_data : List Json)
    (context : Json) (now : Nat) : DB :=
  if db.states.any (fun st => st.conversation_id == sid) then
    { db with states := db.states.map fun st : StateRow =>
        if st.conversation_id == sid then
          { st with messages := messages_data, context := context,
                    last_synced_at := some now }
        else st }
  else
    { db with states := db.states ++
        [{ conversation_id := sid, messages := messages_data,
           context := context, last_synced_at := some now }] }

/-- The `Conversation` metadata update inside `update_session`
(`update(Conversation).where(Conversation.id == session_uuid)`). -/
def update_conv_meta (db : DB) (sid : String) (message_count : Int)
    (preview : Option String) (lastAt : Option Nat) (now : Nat) : DB :=
  { db with conversations := db.conversations.map fun c : ConvRow =>
      if c.id == sid then
        { c with message_count := message_count,
                 last_message_preview := preview,
                 last_message_at := lastAt,
                 updated_at := now }
      else c }

/-- `SessionStore.update_session` (`apps/backend/state.py` lines
229-339): serialise the state, upsert the state row, update the
conversation metadata, and schedule title generation when
`message_count == 2` or `message_count % 10 == 0`.  `dbOk` models the
database transaction: when it fails the function re-raises (`none`) and
schedules nothing. -/
def update_session (db : DB) (state : SessionState) (_user_id : String)
    (now : Nat) (dbOk : Bool) : Option (DB × List TitleTask) :=
  let sid := state.session_id
  let messages_data := state.chat_history.map dumpMessage
  let context := dumpContext state
  let message_count : Int := state.chat_history.length
  let preview : Option String :=
    (state.chat_history.getLast?).map previewOf
  let lastAt : Option Nat :=
    (state.chat_history.getLast?).map (fun m => m.timestamp)
  if !dbOk then none
  else
    let db1 := upsert_state_row db sid messages_data context now
    let db2 := update_conv_meta db1 sid message_count preview lastAt now
    let tasks :=
      if message_count == 2 || message_count % 10 == 0 then
        [⟨sid, messages_data, message_count⟩]
      else []
    some (db2, tasks)

-- ============================================================
-- Title generation
-- ============================================================

/-- Outcome of the external summarisation call inside
`generate_conversation_title`: the model's raw reply, a timeout of
`asyncio.wait_for`, or any other exception. -/
inductive GenOutcome where
  | ok : String → GenOutcome
  | timeout : GenOutcome
  | fail : GenOutcome

/-- Python `str.strip(c)`: drop leading and trailing runs of `c`. -/
def stripChar (c : Char) (s : String) : String :=
  ⟨((s.data.dropWhile (· == c)).reverse.dropWhile (· == c)).reverse⟩

/-- The title clean-up in `generate_conversation_title`
(`apps/backend/title_generator.py` lines 60-69). -/
def cleanupTitle (raw : String) : String :=
  let t := raw.trim
  let t := stripChar '"' t
  let t := stripChar '\'' t
  let t := t.trim
  if t.length > 50 then t.take 47 ++ "..." else t

/-- `generate_conversation_title` (`apps/backend/title_generator.py`):
never raises — a missing API key, a timeout, a failure, or an empty
cleaned title all yield the default `"New Conversation"`. -/
def generate_conversation_title (apiKeySet : Bool) (outcome : GenOutcome) :
    String :=
  if !apiKeySet then "New Conversation"
  else
    match outcome with
    | GenOutcome.timeout => "New Conversation"
    | GenOutcome.fail => "New Conversation"
    | GenOutcome.ok raw =>
      let title := cleanupTitle raw
      if title = "" then "New Conversation" else title

/-- `SessionStore._generate_and_update_title` (`apps/backend/state.py`
lines 341-375), acting on the `conversations` table.  Since
`generate_conversation_title` catches every exception internally, the
`except` branch here (writing the default for `message_count == 2`) is
reached only when the database write itself fails (`dbOk = false`);
`fallbackDbOk` is that branch's own write. -/
def generate_and_update_title (convs : List ConvRow) (session_uuid : String)
    (apiKeySet : Bool) (outcome : GenOutcome) (message_count : Int)
    (dbOk : Bool) (fallbackDbOk : Bool) : List ConvRow :=
  let title := generate_conversation_title apiKeySet outcome
  if dbOk then
    convs.map fun c =>
      if c.id == session_uuid then { c with title := some title } else c
  else if message_count == 2 && fallbackDbOk then
    convs.map fun c =>
      if c.id == session_uuid then { c with title := some "New Conversation" }
      else c
  else convs

/-- The `/action/{action}` endpoint's session lookup
(`apps/backend/main.py` line 235): `store.get_session(db, session_id)`,
with no owner id. -/
def execute_action_lookup (db : DB) (session_id : String) :
    Option SessionState :=
  get_session db session_id none false

/-- The `/state/sync` endpoint's session lookup (`apps/backend/main.py`
line 172): `store.get_session(db, request.session_id,
user_id=request.user_id)` where the request's `user_id` is optional. -/
def sync_state_lookup (db : DB) (session_id : String)
    (uid? : Option String) : Option SessionState :=
  get_session db session_id uid? false

-- ============================================================
-- Agent streaming turn (`run_agent_stream` + `chat_stream_generator`)
-- ============================================================

/-- A part of a list-valued streamed `content` (the loop reads
`part.get("type")`, `part.get("text", "")`, `part.get("thinking", "")`;
non-dict parts are skipped and not modelled). -/
structure RawPart where
  type : String
  text : String := ""
  thinking : String := ""

/-- The `content` attribute of a streamed message object: missing/`None`,
a plain string, or a list of parts. -/
inductive MsgContent where
  | empty : MsgContent
  | str : String → MsgContent
  | parts : List RawPart → MsgContent

/-- An entry of a chunk's `tool_calls`. -/
structure ToolCallIn where
  id : Option String := none
  name : String := ""
  args : Json := Json.obj []

/-- An entry of a chunk's `tool_call_chunks` (fragmented argument
strings). -/
structure ToolCallChunk where
  id : Option String := none
  name : Option String := none
  args : String := ""
  index : Int := 0

/-- A streamed message object (an `AIMessageChunk` or a `ToolMessage`),
carrying the attributes the loop reads. -/
structure MsgObj where
  content : MsgContent := MsgContent.empty
  tool_calls : List ToolCallIn := []
  tool_call_chunks : List ToolCallChunk := []
  type : Option String := none
  tool_call_id : Option String := none

/-- One item of the `agent_graph.astream` feed: mode "custom" (an action
written by a tool through `get_stream_writer` — the only custom events
this program's tools write) or mode "messages". -/
inductive StreamItem where
  | custom : ActionEvent → StreamItem
  | message : MsgObj → StreamItem

/-- An event of the normalized stream protocol.  `errorChunk` is the
SSE-level error object `chat_stream_generator` emits when the generator
raises (`apps/backend/main.py` line 100); it is not a protocol `done`
event. -/
inductive Event where
  | text : String → Event
  | thinking : String → Event
  | tool_start (id tool_name : String) (args : Json) : Event
  | tool_end (id tool_name result status : String) : Event
  | action : ActionEvent → Event
  | done (session_id : String) (actions : List Json) (state : Json) : Event
  | errorChunk (content : String) : Event

/-- The `tool_call_part` dict built by the loop; `tool_calls_map` holds a
reference to it, so later status/result updates are modelled by mutating
the slot it occupies. -/
structure ToolCallPart where
  id : String
  tool_name : String
  args : Json
  status : String
  result : Option String := none

/-- A `message_parts` entry: text, thinking, or a reference (by slot) to
a tool-call part dict. -/
inductive PartRef where
  | text : String → PartRef
  | thinking : String → PartRef
  | toolRef : Nat → PartRef

/-- The loop state of `run_agent_stream`'s streaming section, plus the
events yielded so far. -/
structure LoopState where
  full_response : String := ""
  active_tool_calls : List (String × String) := []
  message_parts : List PartRef := []
  current_text : Option Nat := none
  tool_parts : List ToolCallPart := []
  tool_calls_map : List (String × Nat) := []
  args_buffer : List (String × String) := []
  events : List Event := []

/-- Python dict assignment on an insertion-ordered dict: update in place
when the key exists, append otherwise. -/
def alSet {α : Type} : List (String × α) → String → α → List (String × α)
  | [], k, v => [(k, v)]
  | (k', v') :: t, k, v =>
    if k' == k then (k, v) :: t else (k', v') :: alSet t k v

/-- Python `dict.pop(k, None)`: drop the entry with the key. -/
def alRemove {α : Type} : List (String × α) → String → List (String × α)
  | [], _ => []
  | (k', v') :: t, k => if k' == k then t else (k', v') :: alRemove t k

/-- Python `pat in hay` on strings: contiguous substring test. -/
def pyStrContains (hay pat : String) : Bool :=
  decide (pat.data <:+: hay.data)

/-- Python `hay.startswith(pat)`. -/
def pyStartsWith (hay pat : String) : Bool :=
  decide (pat.data <+: hay.data)

/-- Python `s.lower()` (character-wise lowercasing). -/
def pyLower (s : String) : String :=
  ⟨s.data.map Char.toLower⟩

/-- Emit one nonempty text fragment: extend `full_response`, open or
extend the current text part, and yield a `text` event (lines 474-514 of
`apps/backend/agent.py`). -/
def pushText (st : LoopState) (c : String) : LoopState :=
  let st1 := { st with full_response := st.full_response ++ c,
                       events := st.events ++ [Event.text c] }
  match st.current_text with
  | none =>
    { st1 with message_parts := st1.message_parts ++ [PartRef.text c],
               current_text := some st1.message_parts.length }
  | some i =>
    { st1 with message_parts :=
        match st1.message_parts[i]? with
        | some (PartRef.text s) => st1.message_parts.set i (PartRef.text (s ++ c))
        | _ => st1.message_parts }

/-- Step 1 of the loop body: process the chunk's `content` (string, or
list of text/thinking parts). -/
def processContent (st : LoopState) (c : MsgContent) : LoopState :=
  match c with
  | MsgContent.empty => st
  | MsgContent.str s => if s = "" then st else pushText st s
  | MsgContent.parts ps =>
    ps.foldl (fun st p =>
      if p.type == "text" then
        if p.text = "" then st else pushText st p.text
      else if p.type == "thinking" then
        if p.thinking = "" then st
        else { st with
                message_parts := st.message_parts ++ [PartRef.thinking p.thinking],
                events := st.events ++ [Event.thinking p.thinking] }
      else st) st

/-- The effective call id: the chunk's id, or the generated stable id
`f"{name}:{hash(str(args))}"` when missing (Python `hash(str(...))` is
the `pyHashArgs` parameter). -/
def toolCallId (pyHashArgs : Json → Int) (tc : ToolCallIn) : String :=
  match tc.id with
  | some i =>
    if i = "" then tc.name ++ ":" ++ toString (pyHashArgs tc.args) else i
  | none => tc.name ++ ":" ++ toString (pyHashArgs tc.args)

/-- The deduplication branch: a repeated delta for a known call id
updates that call's buffered args in place (when the new args are a
non-empty value) and yields nothing. -/
def dedupToolCall (st : LoopState) (tool_id : String) (args : Json) :
    LoopState :=
  match st.tool_calls_map.lookup tool_id with
  | some slot =>
    match st.tool_parts[slot]? with
    | some part =>
      if args.pyTruthy && !args.isEmptyObj then
        { st with tool_parts := st.tool_parts.set slot { part with args := args } }
      else st
    | none => st
  | none => st

/-- Step 2 of the loop body, per tool call: skip malformed names,
generate a stable id when missing, deduplicate by call id, otherwise
record the call and yield `tool_start`. -/
def processToolCall (pyHashArgs : Json → Int) (st : LoopState)
    (tc : ToolCallIn) : LoopState :=
  if tc.name = "" || tc.name.trim = "" then st
  else
    let tool_id := toolCallId pyHashArgs tc
    if st.active_tool_calls.any (fun kv => kv.1 == tool_id) then
      dedupToolCall st tool_id tc.args
    else
      { st with
        active_tool_calls := st.active_tool_calls ++ [(tool_id, tc.name)],
        tool_parts := st.tool_parts ++
          [{ id := tool_id, tool_name := tc.name, args := tc.args,
             status := "pending" }],
        tool_calls_map := alSet st.tool_calls_map tool_id st.tool_parts.length,
        message_parts := st.message_parts ++ [PartRef.toolRef st.tool_parts.length],
        events := st.events ++ [Event.tool_start tool_id tc.name tc.args] }

/-- Accumulate a fragmented argument string for a call id into the
buffer and re-yield `tool_start` once the buffer parses as JSON
(`json.loads` is the `parseJson` parameter). -/
def bufferToolArgs (parseJson : String → Option Json) (st : LoopState)
    (tool_id : String) (chArgs : String) : LoopState :=
  let buf := (st.args_buffer.lookup tool_id).getD "" ++ chArgs
  let st1 := { st with args_buffer := alSet st.args_buffer tool_id buf }
  match parseJson buf with
  | none => st1
  | some parsed =>
    match st1.tool_calls_map.lookup tool_id with
    | none => st1
    | some slot =>
      match st1.tool_parts[slot]? with
      | none => st1
      | some part =>
        { st1 with
          tool_parts := st1.tool_parts.set slot { part with args := parsed },
          events := st1.events ++
            [Event.tool_start tool_id part.tool_name parsed] }

/-- Step 2.5 of the loop body, per tool-call chunk: fragments with index
0 are accumulated for the most recent active call. -/
def processToolChunk (parseJson : String → Option Json) (st : LoopState)
    (ch : ToolCallChunk) : LoopState :=
  if ch.index == 0 && !st.active_tool_calls.isEmpty then
    match st.active_tool_calls.getLast? with
    | none => st
    | some (tool_id, _) =>
      if tool_id = "" || ch.args = "" then st
      else bufferToolArgs parseJson st tool_id ch.args
  else st

/-- The `is_error` test on a tool result (`apps/backend/agent.py` lines
670-677): only a string content is inspected — it is an error when its
lowercase form starts with or contains "error". -/
def toolResultIsError (c : MsgContent) : Bool :=
  match c with
  | MsgContent.str s =>
    pyStartsWith (pyLower s) "error" || pyStrContains (pyLower s) "error"
  | _ => false

/-- The `result` field of a `tool_end` event:
`str(result_content) if result_content else ""`. -/
def toolResultStr (pyReprParts : List RawPart → String) (c : MsgContent) :
    String :=
  match c with
  | MsgContent.empty => ""
  | MsgContent.str s => s
  | MsgContent.parts ps => if ps.isEmpty then "" else pyReprParts ps

/-- Update the buffered tool-call part dict (through the reference held
in `tool_calls_map`) with the observed result and status. -/
def recordToolEnd (st : LoopState) (tid result_str status : String) :
    LoopState :=
  match st.tool_calls_map.lookup tid with
  | some slot =>
    match st.tool_parts[slot]? with
    | some part =>
      let upd := { part with result := some result_str, status := status }
      { st with tool_parts := st.tool_parts.set slot upd }
    | none => st
  | none => st

/-- Step 3 of the loop body: a `ToolMessage` (type "tool") carries a
tool result; compute its error status, update the buffered part for
history, yield `tool_end`, and retire the call id. -/
def processToolResult (pyReprParts : List RawPart → String) (st : LoopState)
    (m : MsgObj) : LoopState :=
  if m.type == some "tool" then
    match m.tool_call_id with
    | none => st
    | some tid =>
      if tid = "" then st
      else
        let tool_name := (st.active_tool_calls.lookup tid).getD "unknown"
        let result_str := toolResultStr pyReprParts m.content
        let status := if toolResultIsError m.content then "error" else "success"
        let st1 := recordToolEnd st tid result_str status
        { st1 with
          events := st1.events ++ [Event.tool_end tid tool_name result_str status],
          active_tool_calls := alRemove st1.active_tool_calls tid }
  else st

/-- The whole loop body for one "messages"-mode chunk, in source order:
content, tool calls (resetting the open text segment), tool-call chunks,
tool result. -/
def processMessage (pyHashArgs : Json → Int) (parseJson : String → Option Json)
    (pyReprParts : List RawPart → String) (st : LoopState) (m : MsgObj) :
    LoopState :=
  let st1 := processContent st m.content
  let st2 :=
    if m.tool_calls.isEmpty then st1
    else m.tool_calls.foldl (processToolCall pyHashArgs)
      { st1 with current_text := none }
  let st3 := m.tool_call_chunks.foldl (processToolChunk parseJson) st2
  processToolResult pyReprParts st3 m

/-- One step of the `async for` loop: a custom chunk is yielded verbatim;
a messages chunk goes through the loop body. -/
def processItem (pyHashArgs : Json → Int) (parseJson : String → Option Json)
    (pyReprParts : List RawPart → String) (st : LoopState) :
    StreamItem → LoopState
  | StreamItem.custom a => { st with events := st.events ++ [Event.action a] }
  | StreamItem.message m => processMessage pyHashArgs parseJson pyReprParts st m

/-- Materialize a collected message part as the dict saved to history. -/
def materializePart (tool_parts : List ToolCallPart) : PartRef → PartDict
  | PartRef.text s => [("type", Json.str "text"), ("content", Json.str s)]
  | PartRef.thinking s => [("type", Json.str "thinking"), ("content", Json.str s)]
  | PartRef.toolRef slot =>
    match tool_parts[slot]? with
    | none => []
    | some p =>
      [("type", Json.str "tool_call"), ("id", Json.str p.id),
       ("tool_name", Json.str p.tool_name), ("args", p.args),
       ("status", Json.str p.status)] ++
      (match p.result with
       | none => []
       | some r => [("result", Json.str r)])

/-- The `state` payload of the terminal `done` event. -/
def doneStateJson (s : SessionState) : Json :=
  Json.obj [("current_track", match s.current_track with
                              | none => Json.null
                              | some t => dumpTrack t),
            ("playlist", Json.arr (s.playlist.map dumpTrack)),
            ("is_playing", Json.bool s.is_playing),
            ("playback_position", Json.num s.playback_position)]

/-- The outcome of one chat turn as observed by the client and the
database. -/
structure TurnResult where
  events : List Event
  session : SessionState
  db : DB
  persisted : Bool
  titleTasks : List TitleTask

/-- The `except` block of `run_agent_stream`: an exception mid-stream is
converted to one apologetic text event replacing the accumulated
response. -/
def applyStreamError (st : LoopState) (streamErr : Bool) : LoopState :=
  if streamErr then
    { st with full_response := "Sorry, I had a little hiccup. Try again? 🎧",
              events := st.events ++
                [Event.text "Sorry, I had a little hiccup. Try again? 🎧"] }
  else st

/-- The no-response fallback: when no text was produced, one fallback
text event is emitted. -/
def applyFallback (st : LoopState) : LoopState :=
  if st.full_response = "" then
    { st with full_response := "I'm here to help with your music!",
              events := st.events ++
                [Event.text "I'm here to help with your music!"] }
  else st

/-- One chat turn: `run_agent_stream` (`apps/backend/agent.py` lines
417-753) wrapped by `chat_stream_generator` (`apps/backend/main.py`
lines 79-104).  `items` is the incremental feed (an exception mid-stream
is the truncated feed plus `streamErr = true`, which the `except` block
turns into one apologetic text event); then the no-response fallback,
the history appends, the persist (`dbOk` as in `update_session`; a
persist failure propagates out of the generator, so
`chat_stream_generator` emits the generic error chunk and no `done`
event), and on success the terminal `done` event. -/
def run_turn (pyHashArgs : Json → Int) (parseJson : String → Option Json)
    (pyReprParts : List RawPart → String) (db : DB) (session : SessionState)
    (user_id : String) (message : String) (items : List StreamItem)
    (streamErr : Bool) (dbOk : Bool) (now : Nat) : TurnResult :=
  let st0 := items.foldl (processItem pyHashArgs parseJson pyReprParts) {}
  let st2 := applyFallback (applyStreamError st0 streamErr)
  let session1 := session.add_message "user" (some message) none now
  let session2 :=
    if st2.message_parts.isEmpty then
      session1.add_message "agent" (some st2.full_response) none now
    else
      session1.add_message "agent" none
        (some (st2.message_parts.map (materializePart st2.tool_parts))) now
  match update_session db session2 user_id now dbOk with
  | some (db', tasks) =>
    ⟨st2.events ++ [Event.done session2.session_id [] (doneStateJson session2)],
     session2, db', true, tasks⟩
  | none =>
    ⟨st2.events ++
       [Event.errorChunk "Sorry, I had a technical difficulty. Try again? 🎧"],
     session2, db, false, []⟩

/-- Whether an event is the terminal `done` event. -/
def Event.isDone : Event → Bool
  | Event.done _ _ _ => true
  | _ => false

/-- Whether an event is a `tool_end` event. -/
def Event.isToolEnd : Event → Bool
  | Event.tool_end _ _ _ _ => true
  | _ => false

/-- The claimed relation between a `tool_end` event's status and its
result text: status "error" exactly when the result contains the token
"error" case-insensitively.  Trivially true of other events. -/
def toolEndOk : Event → Prop
  | Event.tool_end _ _ result status =>
    status = "error" ↔ pyStrContains (pyLower result) "error" = true
  | _ => True

/-- The tool results this program's tools produce are strings (every tool
returns `str`); a stream item is within that scope when any tool message
carries string (or missing) content. -/
def toolMsgContentOk : StreamItem → Prop
  | StreamItem.custom _ => True
  | StreamItem.message m =>
    m.type = some "tool" →
      match m.content with
      | MsgContent.parts _ => False
      | _ => True

/-- One processing stage only appends events, none of them `done`, and
any growth of `full_response` comes with a `text` event. -/
def StageExtA (st st' : LoopState) : Prop :=
  ∃ l, st'.events = st.events ++ l ∧
    (∀ e ∈ l, Event.isDone e = false) ∧
    (st'.full_response = st.full_response ∨ ∃ c, Event.text c ∈ l)

/-- `StageExtA` strengthened with: every appended `tool_end` event
satisfies the status/result relation. -/
def StageExt (st st' : LoopState) : Prop :=
  ∃ l, st'.events = st.events ++ l ∧
    (∀ e ∈ l, Event.isDone e = false) ∧
    (st'.full_response = st.full_response ∨ ∃ c, Event.text c ∈ l) ∧
    (∀ e ∈ l, Event.isToolEnd e = true → toolEndOk e)

-- ============================================================
-- Theorems
-- ============================================================

/-- C1: for every playlist of length `L ≥ 1` and requested 1-indexed
position `p`, `play_track` emits the play-by-index action (the spec's
`play_index`) carrying the 0-based value `p - 1` iff `1 ≤ p ≤ L`; for a
non-numeric input or `p` outside `[1, L]` it returns a validation message
and emits no action. -/
theorem C1_play_track_validation (s : SessionState) (p : Int)
    (hL : s.playlist ≠ []) :
    ((play_track (some s) (some p)).2 = some (playTrackAction (p - 1)) ↔
        1 ≤ p ∧ p ≤ (s.playlist.length : Int)) ∧
    (¬ (1 ≤ p ∧ p ≤ (s.playlist.length : Int)) →
        play_track (some s) (some p) =
          ("Invalid track number. Please choose between 1 and " ++
              toString s.playlist.length ++ ".", none)) ∧
    play_track (some s) none = ("Please provide a valid track number.", none) := by
  have hE : s.playlist.isEmpty = false := by
    simpa [List.isEmpty_iff] using hL
  refine ⟨?_, ?_, rfl⟩
  · constructor
    · intro h
      by_cases hlo : p < 1
      · simp [play_track, hE, hlo] at h
      · by_cases hhi : p > (s.playlist.length : Int)
        · simp [play_track, hE, hlo, hhi] at h
        · exact ⟨by omega, by omega⟩
    · rintro ⟨h1, h2⟩
      have hlo : ¬ p < 1 := by omega
      have hhi : ¬ p > (s.playlist.length : Int) := by omega
      simp [play_track, hE, hlo, hhi]
  · intro h
    have : p < 1 ∨ p > (s.playlist.length : Int) := by omega
    rcases this with h' | h' <;> simp [play_track, hE, h']

/-- Witness for C1 on a concrete one-track playlist and position 1. -/
theorem C1_play_track_validation_witness :
    (({ session_id := "s", playlist := [dummyTrack] } : SessionState).playlist ≠ []) ∧
    (((play_track (some { session_id := "s", playlist := [dummyTrack] }) (some 1)).2 =
          some (playTrackAction 0) ↔
        1 ≤ (1 : Int) ∧ (1 : Int) ≤
          ((({ session_id := "s", playlist := [dummyTrack] } : SessionState)).playlist.length : Int)) ∧
      (¬ (1 ≤ (1 : Int) ∧ (1 : Int) ≤
            ((({ session_id := "s", playlist := [dummyTrack] } : SessionState)).playlist.length : Int)) →
          play_track (some { session_id := "s", playlist := [dummyTrack] }) (some 1) =
            ("Invalid track number. Please choose between 1 and " ++
                toString ({ session_id := "s", playlist := [dummyTrack] } : SessionState).playlist.length ++
              ".", none)) ∧
      play_track (some { session_id := "s", playlist := [dummyTrack] }) none =
        ("Please provide a valid track number.", none)) :=
  ⟨by simp, C1_play_track_validation { session_id := "s", playlist := [dummyTrack] } 1 (by simp)⟩

/-- C2: on a non-empty playlist, `skip_next` finds the current track's
position by id (`-1` when there is no current track or its id is not in
the playlist), computes `next = position + 1`, answers "already at the
last track" with no action when `next ≥ L`, and otherwise emits the
play-by-index action for `next`; in particular with no current track it
emits the action for index 0. -/
theorem C2_skip_next (s : SessionState) (hL : s.playlist ≠ []) :
    (let pos : Int :=
        match s.current_track with
        | none => -1
        | some c =>
          match s.playlist.findIdx? (fun t => t.id == c.id) with
          | some i => (i : Int)
          | none => -1
      (pos + 1 ≥ (s.playlist.length : Int) →
        skip_next (some s) =
          ("You're already at the last track in the playlist.", none)) ∧
      (pos + 1 < (s.playlist.length : Int) →
        (skip_next (some s)).2 = some (playTrackAction (pos + 1)))) ∧
    (s.current_track = none → (skip_next (some s)).2 = some (playTrackAction 0)) := by
  have hE : s.playlist.isEmpty = false := by
    simpa [List.isEmpty_iff] using hL
  constructor
  · constructor
    · intro h
      simp only [skip_next, hE, Bool.false_eq_true, if_false]
      rw [if_pos h]
    · intro h
      have h' : ¬ (_ ≥ (s.playlist.length : Int)) := not_le.mpr h
      simp only [skip_next, hE, Bool.false_eq_true, if_false]
      rw [if_neg h']
  · intro hc
    have hlen : 0 < (s.playlist.length : Int) := by
      have := List.length_pos.mpr hL
      exact_mod_cast this
    simp only [skip_next, hE, Bool.false_eq_true, if_false, hc]
    rw [if_neg (by omega)]
    norm_num

/-- Witness for C2 on a concrete two-track playlist with no current
track. -/
theorem C2_skip_next_witness :
    (({ session_id := "s", playlist := [dummyTrack, dummyTrack] } : SessionState).playlist ≠ []) ∧
    (({ session_id := "s", playlist := [dummyTrack, dummyTrack] } : SessionState).current_track = none →
      (skip_next (some { session_id := "s", playlist := [dummyTrack, dummyTrack] })).2 =
        some (playTrackAction 0)) :=
  ⟨by simp,
   (C2_skip_next { session_id := "s", playlist := [dummyTrack, dummyTrack] } (by simp)).2⟩

/-- C7: `remove_from_playlist` applies the same 1-indexed validation as
`play_track`: out of range it returns exactly
"Invalid track number. Please choose between 1 and L." and emits no
action; in range it emits the remove-by-index action (the spec's
`remove_index`) with the 0-based index; and in every case the session
state is returned unchanged. -/
theorem C7_remove_from_playlist (s : SessionState) (p : Int)
    (hL : s.playlist ≠ []) :
    (¬ (1 ≤ p ∧ p ≤ (s.playlist.length : Int)) →
        (remove_from_playlist (some s) (some p)).1 =
            "Invalid track number. Please choose between 1 and " ++
              toString s.playlist.length ++ "." ∧
          (remove_from_playlist (some s) (some p)).2.1 = none) ∧
    ((1 ≤ p ∧ p ≤ (s.playlist.length : Int)) →
        (remove_from_playlist (some s) (some p)).2.1 =
          some (removeTrackAction (p - 1))) ∧
    (∀ q : Option Int, (remove_from_playlist (some s) q).2.2 = some s) := by
  have hE : s.playlist.isEmpty = false := by
    simpa [List.isEmpty_iff] using hL
  refine ⟨?_, ?_, ?_⟩
  · intro h
    have : p < 1 ∨ p > (s.playlist.length : Int) := by omega
    rcases this with h' | h' <;> simp [remove_from_playlist, hE, h']
  · rintro ⟨h1, h2⟩
    have hlo : ¬ p < 1 := by omega
    have hhi : ¬ p > (s.playlist.length : Int) := by omega
    simp [remove_from_playlist, hE, hlo, hhi]
  · intro q
    cases q with
    | none => rfl
    | some idx =>
      by_cases hlo : idx < 1
      · simp [remove_from_playlist, hE, hlo]
      · by_cases hhi : idx > (s.playlist.length : Int)
        · simp [remove_from_playlist, hE, hlo, hhi]
        · simp [remove_from_playlist, hE, hlo, hhi]

/-- Witness for C7: index 5 on a concrete 3-track playlist yields the
exact validation message for L = 3 and no action. -/
theorem C7_remove_from_playlist_witness :
    (({ session_id := "s", playlist := [dummyTrack, dummyTrack, dummyTrack] } : SessionState).playlist ≠ []) ∧
    (¬ (1 ≤ (5 : Int) ∧ (5 : Int) ≤
          ((({ session_id := "s", playlist := [dummyTrack, dummyTrack, dummyTrack] } : SessionState)).playlist.length : Int)) →
        (remove_from_playlist
              (some { session_id := "s", playlist := [dummyTrack, dummyTrack, dummyTrack] }) (some 5)).1 =
            "Invalid track number. Please choose between 1 and " ++
              toString ({ session_id := "s", playlist := [dummyTrack, dummyTrack, dummyTrack] } : SessionState).playlist.length ++ "." ∧
          (remove_from_playlist
              (some { session_id := "s", playlist := [dummyTrack, dummyTrack, dummyTrack] }) (some 5)).2.1 = none) :=
  ⟨by simp,
   (C7_remove_from_playlist
      { session_id := "s", playlist := [dummyTrack, dummyTrack, dummyTrack] } 5 (by simp)).1⟩

-- Round-trip helper lemmas for the store

/-- Dumping then re-validating a track is the identity. -/
theorem parseTrack_dumpTrack (t : TrackInfo) : parseTrack (dumpTrack t) = some t := by
  cases t with
  | mk id name artist album artwork_url duration =>
    cases album <;> cases artwork_url <;> cases duration <;> rfl

/-- Dumping then re-validating a playlist is the identity. -/
theorem parseTrackList_dump (l : List TrackInfo) :
    parseTrackList (l.map dumpTrack) = some l := by
  induction l with
  | nil => rfl
  | cons t ts ih => simp [parseTrackList, parseTrack_dumpTrack, ih]

/-- Re-validating a dumped parts list is the identity. -/
theorem parsePartList_obj (l : List PartDict) :
    parsePartList (l.map Json.obj) = some l := by
  induction l with
  | nil => rfl
  | cons p ps ih => simp [parsePartList, ih]

/-- Dumping then re-validating a message is the identity. -/
theorem parseMessage_dumpMessage (m : Message) :
    parseMessage (dumpMessage m) = some m := by
  cases m with
  | mk role content parts timestamp =>
    cases content <;> cases parts <;>
      simp [parseMessage, dumpMessage, Json.getField, parseStrField,
            parseOptStrField, parsePartsField, parseTimestampField,
            optStrJson, parsePartList_obj, List.lookup]

/-- Dumping then re-validating a chat history is the identity. -/
theorem parseMessageList_dump (l : List Message) :
    parseMessageList (l.map dumpMessage) = some l := by
  induction l with
  | nil => rfl
  | cons m ms ih => simp [parseMessageList, parseMessage_dumpMessage, ih]

/-- Cons form of `parseTrackList_dump`, stated so it rewrites after
`List.map_cons`. -/
theorem parseTrackList_dump_cons (t : TrackInfo) (ts : List TrackInfo) :
    parseTrackList (dumpTrack t :: ts.map dumpTrack) = some (t :: ts) := by
  simpa using parseTrackList_dump (t :: ts)

/-- Cons form of `parseMessageList_dump`. -/
theorem parseMessageList_dump_cons (m : Message) (ms : List Message) :
    parseMessageList (dumpMessage m :: ms.map dumpMessage) = some (m :: ms) := by
  simpa using parseMessageList_dump (m :: ms)

/-- A dumped track is a truthy JSON value. -/
theorem pyTruthy_dumpTrack (t : TrackInfo) : (dumpTrack t).pyTruthy = true := rfl

/-- Truthiness of `null`. -/
theorem pyTruthy_null : Json.null.pyTruthy = false := rfl

/-- Truthiness of an object. -/
theorem pyTruthy_obj (kvs : List (String × Json)) :
    (Json.obj kvs).pyTruthy = !kvs.isEmpty := rfl

/-- Hydrating the row written for a session recovers the session (the
row's `conversation_id` is not read; `last_sync` becomes the row's
sync instant). -/
theorem hydrate_dump (cid : String) (s : SessionState) (ls : Option Nat) :
    hydrate_session ⟨cid, s.chat_history.map dumpMessage, dumpContext s, ls⟩
        s.session_id = some { s with last_sync := ls.getD 0 } := by
  cases s with
  | mk sid hist ct pl ip pp lsync =>
    cases ct <;> cases pl <;> cases hist <;>
      simp [hydrate_session, dumpContext, Json.getField,
            pyTruthy_dumpTrack, pyTruthy_null, pyTruthy_obj,
            parseTrack_dumpTrack, parseTrackList_dump_cons,
            parseMessageList_dump_cons, List.lookup]

/-- The state-row upsert leaves the conversations table unchanged. -/
theorem upsert_state_row_conversations (db : DB) (sid : String)
    (msgs : List Json) (ctx : Json) (now : Nat) :
    (upsert_state_row db sid msgs ctx now).conversations = db.conversations := by
  unfold upsert_state_row
  by_cases h : db.states.any (fun st => st.conversation_id == sid) <;> simp [h]

/-- The metadata update leaves the states table unchanged. -/
theorem update_conv_meta_states (db : DB) (sid : String) (mc : Int)
    (pv : Option String) (la : Option Nat) (now : Nat) :
    (update_conv_meta db sid mc pv la now).states = db.states := rfl

/-- After the upsert, the states matching the session id are exactly the
freshly written row (given the table held at most one such row, as its
unique index guarantees). -/
theorem filter_states_upsert (db : DB) (sid : String) (msgs : List Json)
    (ctx : Json) (now : Nat)
    (h : (db.states.filter (fun st => st.conversation_id == sid)).length ≤ 1) :
    (upsert_state_row db sid msgs ctx now).states.filter
        (fun st => st.conversation_id == sid) =
      [{ conversation_id := sid, messages := msgs, context := ctx,
         last_synced_at := some now }] := by
  unfold upsert_state_row
  by_cases hany : db.states.any (fun st => st.conversation_id == sid)
  · rw [if_pos hany]
    have hcomp : ∀ st ∈ db.states,
        (((fun st : StateRow =>
            if st.conversation_id == sid then
              { st with messages := msgs, context := ctx,
                        last_synced_at := some now }
            else st) st).conversation_id == sid) = (st.conversation_id == sid) := by
      intro st _
      by_cases hm : st.conversation_id == sid <;> simp [hm]
    simp only [List.filter_map, Function.comp_def]
    rw [List.filter_congr hcomp]
    obtain ⟨st0, hst0⟩ : ∃ st0,
        db.states.filter (fun st => st.conversation_id == sid) = [st0] := by
      rcases hfe : db.states.filter (fun st => st.conversation_id == sid)
        with _ | ⟨st0, rest⟩
      · obtain ⟨x, hx, hpx⟩ := List.any_eq_true.mp hany
        have hxm : x ∈ db.states.filter (fun st => st.conversation_id == sid) :=
          List.mem_filter.mpr ⟨hx, hpx⟩
        rw [hfe] at hxm
        exact absurd hxm (List.not_mem_nil x)
      · rcases rest with _ | ⟨y, rest'⟩
        · exact ⟨st0, hfe⟩
        · rw [hfe] at h
          simp at h
    rw [hst0]
    have hp0 : (st0.conversation_id == sid) = true := by
      have hmem : st0 ∈ db.states.filter (fun st => st.conversation_id == sid) := by
        rw [hst0]
        exact List.mem_cons_self st0 []
      exact (List.mem_filter.mp hmem).2
    have hid : st0.conversation_id = sid := by simpa using hp0
    simp [hp0, hid]
  · rw [if_neg hany]
    simp only [List.filter_append]
    have h1 : db.states.filter (fun st => st.conversation_id == sid) = [] := by
      rw [List.filter_eq_nil_iff]
      intro a ha hpa
      exact hany (List.any_eq_true.mpr ⟨a, ha, hpa⟩)
    rw [h1]
    simp

/-- After the metadata update, the conversations matching the session id
and its owner are exactly the refreshed conversation row. -/
theorem filter_convs_meta (db : DB) (sid uid : String) (mc : Int)
    (pv : Option String) (la : Option Nat) (now : Nat) (conv : ConvRow)
    (hconv : db.conversations.filter (fun c => c.id == sid) = [conv])
    (hown : conv.user_id = uid) :
    (update_conv_meta db sid mc pv la now).conversations.filter
        (fun c => c.id == sid && c.user_id == uid) =
      [{ conv with message_count := mc, last_message_preview := pv,
                   last_message_at := la, updated_at := now }] := by
  unfold update_conv_meta
  have hcomp : ∀ c ∈ db.conversations,
      ((((fun c : ConvRow =>
          if c.id == sid then
            { c with message_count := mc, last_message_preview := pv,
                     last_message_at := la, updated_at := now }
          else c) c).id == sid) &&
        (((fun c : ConvRow =>
          if c.id == sid then
            { c with message_count := mc, last_message_preview := pv,
                     last_message_at := la, updated_at := now }
          else c) c).user_id == uid)) =
      (c.id == sid && c.user_id == uid) := by
    intro c _
    by_cases hm : c.id == sid <;> simp [hm]
  simp only [List.filter_map, Function.comp_def]
  rw [List.filter_congr hcomp]
  have hsplit : db.conversations.filter (fun c => c.id == sid && c.user_id == uid) =
      (db.conversations.filter (fun c => c.id == sid)).filter
        (fun c => c.user_id == uid) := by
    rw [List.filter_filter]
    apply List.filter_congr
    intro a _
    rw [Bool.and_comm]
  rw [hsplit, hconv]
  have hidc : (conv.id == sid) = true := by
    have hmem : conv ∈ db.conversations.filter (fun c => c.id == sid) := by
      rw [hconv]
      exact List.mem_cons_self conv []
    exact (List.mem_filter.mp hmem).2
  have hideq : conv.id = sid := by simpa using hidc
  simp [hown, hidc, hideq]

/-- C4: persisting a `SessionState` through `update_session` and loading
it back by the same session id through `get_session` yields the state
with equal `current_track`, `playlist`, `is_playing`,
`playback_position`, and chat history (exactly; `last_sync` becomes the
persist instant).  The conversation row must exist for this owner, and
the tables hold at most one row per id, as their keys guarantee. -/
theorem C4_roundtrip (db : DB) (s : SessionState) (uid : String) (now : Nat)
    (conv : ConvRow) (huid : uid ≠ "")
    (hconv : db.conversations.filter (fun c => c.id == s.session_id) = [conv])
    (hown : conv.user_id = uid)
    (hstu : (db.states.filter
        (fun st => st.conversation_id == s.session_id)).length ≤ 1) :
    ∃ r, update_session db s uid now true = some r ∧
      get_session r.1 s.session_id (some uid) false =
        some { s with last_sync := now } := by
  refine ⟨_, rfl, ?_⟩
  simp only [update_session, Bool.not_true, Bool.false_eq_true, if_false]
  simp only [get_session, Bool.false_eq_true, if_false]
  have hpred : (fun c : ConvRow => c.id == s.session_id &&
      (if uid = "" then true else c.user_id == uid)) =
      (fun c : ConvRow => c.id == s.session_id && c.user_id == uid) := by
    funext c
    rw [if_neg huid]
  rw [hpred]
  have hconv2 : ((upsert_state_row db s.session_id
      (s.chat_history.map dumpMessage) (dumpContext s) now).conversations.filter
        (fun c => c.id == s.session_id)) = [conv] := by
    rw [upsert_state_row_conversations]
    exact hconv
  rw [filter_convs_meta _ _ _ _ _ _ _ _ hconv2 hown,
      update_conv_meta_states, filter_states_upsert _ _ _ _ _ hstu]
  simpa using hydrate_dump s.session_id s (some now)

/-- Witness for C4 on a concrete one-conversation database. -/
theorem C4_roundtrip_witness :
    (("u" : String) ≠ "") ∧
    (({ conversations := [{ id := "sid", user_id := "u" }], states := [] } : DB).conversations.filter
        (fun c => c.id == ({ session_id := "sid" } : SessionState).session_id) =
      [{ id := "sid", user_id := "u" }]) ∧
    (({ id := "sid", user_id := "u" } : ConvRow).user_id = "u") ∧
    ((({ conversations := [{ id := "sid", user_id := "u" }], states := [] } : DB).states.filter
        (fun st => st.conversation_id == ({ session_id := "sid" } : SessionState).session_id)).length ≤ 1) ∧
    (∃ r, update_session { conversations := [{ id := "sid", user_id := "u" }], states := [] }
            { session_id := "sid" } "u" 5 true = some r ∧
      get_session r.1 ({ session_id := "sid" } : SessionState).session_id (some "u") false =
        some { ({ session_id := "sid" } : SessionState) with last_sync := 5 }) :=
  ⟨by decide, by simp, rfl, by simp,
   C4_roundtrip { conversations := [{ id := "sid", user_id := "u" }], states := [] }
     { session_id := "sid" } "u" 5 { id := "sid", user_id := "u" }
     (by decide) (by simp) rfl (by simp)⟩

/-- Without a conversation row carrying the session id, an owner-checked
or ownerless lookup finds nothing. -/
theorem get_session_none_of_no_conv (db : DB) (sid : String)
    (uid? : Option String)
    (hc : db.conversations.any (fun c => c.id == sid) = false) :
    get_session db sid uid? false = none := by
  simp only [get_session, Bool.false_eq_true, if_false]
  have hconvs : db.conversations.filter
      (fun c => c.id == sid &&
        (match uid? with
         | some uid => if uid = "" then true else c.user_id == uid
         | none => true)) = [] := by
    rw [List.filter_eq_nil_iff]
    intro c hcm hpc
    exact (List.any_eq_false.mp hc) c hcm (Bool.and_eq_true_iff.mp hpc).1
  rw [hconvs]
  have hjoined : ((db.states.filter fun st => st.conversation_id == sid).flatMap
      fun st => ([] : List ConvRow).map fun _ => st) = [] := by
    rw [List.flatMap_eq_nil_iff]
    intro x _
    simp
  rw [hjoined]
  rfl

/-- Without a state row carrying the session id, the lookup finds
nothing. -/
theorem get_session_none_of_no_state (db : DB) (sid : String)
    (uid? : Option String)
    (hs : db.states.any (fun st => st.conversation_id == sid) = false) :
    get_session db sid uid? false = none := by
  simp only [get_session, Bool.false_eq_true, if_false]
  have hsts : db.states.filter (fun st => st.conversation_id == sid) = [] := by
    rw [List.filter_eq_nil_iff]
    intro a ha hpa
    exact (List.any_eq_false.mp hs) a ha hpa
  rw [hsts]
  rfl

/-- A successful owner-checked lookup needs both a conversation row with
the session id and a state row pointing at it. -/
theorem get_session_some_exists (db : DB) (sid : String) (uid? : Option String)
    (s0 : SessionState) (h : get_session db sid uid? false = some s0) :
    db.conversations.any (fun c => c.id == sid) = true ∧
    db.states.any (fun st => st.conversation_id == sid) = true := by
  constructor
  · cases hcb : db.conversations.any (fun c => c.id == sid) with
    | false =>
      rw [get_session_none_of_no_conv db sid uid? hcb] at h
      exact absurd h (by simp)
    | true => rfl
  · cases hsb : db.states.any (fun st => st.conversation_id == sid) with
    | false =>
      rw [get_session_none_of_no_state db sid uid? hsb] at h
      exact absurd h (by simp)
    | true => rfl

/-- Retrieving a freshly inserted conversation and empty state row yields
the default session state. -/
theorem get_session_fresh (db : DB) (sid uid : String) (huid : uid ≠ "")
    (hnoconv : ∀ c ∈ db.conversations, ¬(c.id = sid))
    (hnost : ∀ st ∈ db.states, ¬(st.conversation_id = sid)) :
    get_session
      { conversations := db.conversations ++
          [{ id := sid, user_id := uid, title := none, message_count := 0 }],
        states := db.states ++
          [{ conversation_id := sid, messages := [], context := Json.obj [] }] }
      sid (some uid) false = some { session_id := sid } := by
  simp only [get_session, Bool.false_eq_true, if_false]
  have hconvs : (db.conversations ++
      ([{ id := sid, user_id := uid, title := none, message_count := 0 }] :
        List ConvRow)).filter
        (fun c => c.id == sid && (if uid = "" then true else c.user_id == uid)) =
      ([{ id := sid, user_id := uid, title := none, message_count := 0 }] :
        List ConvRow) := by
    rw [List.filter_append]
    have h1 : db.conversations.filter
        (fun c => c.id == sid && (if uid = "" then true else c.user_id == uid)) = [] := by
      rw [List.filter_eq_nil_iff]
      intro c hc hpc
      exact hnoconv c hc (by simpa using (Bool.and_eq_true_iff.mp hpc).1)
    rw [h1]
    simp [huid]
  have hsts : (db.states ++
      ([{ conversation_id := sid, messages := [], context := Json.obj [] }] :
        List StateRow)).filter
        (fun st => st.conversation_id == sid) =
      ([{ conversation_id := sid, messages := [], context := Json.obj [] }] :
        List StateRow) := by
    rw [List.filter_append]
    have h1 : db.states.filter (fun st => st.conversation_id == sid) = [] := by
      rw [List.filter_eq_nil_iff]
      intro a ha hpa
      exact hnost a ha (by simpa using hpa)
    rw [h1]
    simp
  rw [hconvs, hsts]
  rfl

/-- C5: `create_session` is an idempotent get-or-create — two calls with
the same arguments return a state with the same session id, the second
call leaves the database untouched, exactly one conversation row and one
state row exist afterwards, and a call on an already-existing
conversation returns the existing state rather than erroring. -/
theorem C5_create_idempotent (db : DB) (sid uid : String) (huid : uid ≠ "")
    (hnoconv : ∀ c ∈ db.conversations, ¬(c.id = sid))
    (hnost : ∀ st ∈ db.states, ¬(st.conversation_id = sid)) :
    (∃ s1, (create_session db sid uid).2 = some s1 ∧ s1.session_id = sid) ∧
    create_session (create_session db sid uid).1 sid uid =
      ((create_session db sid uid).1, (create_session db sid uid).2) ∧
    ((create_session db sid uid).1.conversations.filter
        (fun c => c.id == sid)).length = 1 ∧
    ((create_session db sid uid).1.states.filter
        (fun st => st.conversation_id == sid)).length = 1 ∧
    (∀ (db' : DB) (s0 : SessionState),
        get_session db' sid (some uid) false = some s0 →
        create_session db' sid uid = (db', some s0)) := by
  have hanyc : db.conversations.any (fun c => c.id == sid) = false := by
    rw [List.any_eq_false]
    intro c hc
    simpa using hnoconv c hc
  have hanys : db.states.any (fun st => st.conversation_id == sid) = false := by
    rw [List.any_eq_false]
    intro st hst
    simpa using hnost st hst
  have hcr : create_session db sid uid =
      ({ conversations := db.conversations ++
          [{ id := sid, user_id := uid, title := none, message_count := 0 }],
         states := db.states ++
          [{ conversation_id := sid, messages := [], context := Json.obj [] }] },
       get_session
        { conversations := db.conversations ++
            [{ id := sid, user_id := uid, title := none, message_count := 0 }],
          states := db.states ++
            [{ conversation_id := sid, messages := [], context := Json.obj [] }] }
        sid (some uid) false) := by
    simp only [create_session, hanyc, hanys, Bool.false_eq_true, if_false]
  have hexisting : ∀ (db' : DB) (s0 : SessionState),
      get_session db' sid (some uid) false = some s0 →
      create_session db' sid uid = (db', some s0) := by
    intro db' s0 hget
    obtain ⟨hc, hs⟩ := get_session_some_exists db' sid (some uid) s0 hget
    simp only [create_session, hc, hs, if_true]
    rw [hget]
  have hfresh := get_session_fresh db sid uid huid hnoconv hnost
  refine ⟨⟨{ session_id := sid }, ?_, rfl⟩, ?_, ?_, ?_, hexisting⟩
  · rw [hcr]
    exact hfresh
  · have hget1 : get_session (create_session db sid uid).1 sid (some uid) false =
        some { session_id := sid } := by
      rw [hcr]
      exact hfresh
    have h2 := hexisting (create_session db sid uid).1 { session_id := sid } hget1
    rw [h2, hcr]
    rw [hfresh]
  · rw [hcr]
    show ((db.conversations ++ _).filter _).length = 1
    rw [List.filter_append]
    have h1 : db.conversations.filter (fun c => c.id == sid) = [] := by
      rw [List.filter_eq_nil_iff]
      intro c hc hpc
      exact hnoconv c hc (by simpa using hpc)
    rw [h1]
    simp
  · rw [hcr]
    show ((db.states ++ _).filter _).length = 1
    rw [List.filter_append]
    have h1 : db.states.filter (fun st => st.conversation_id == sid) = [] := by
      rw [List.filter_eq_nil_iff]
      intro a ha hpa
      exact hnost a ha (by simpa using hpa)
    rw [h1]
    simp

/-- Witness for C5 on the empty database. -/
theorem C5_create_idempotent_witness :
    (("u" : String) ≠ "") ∧
    (∃ s1, (create_session { conversations := [], states := [] } "sid" "u").2 = some s1 ∧
      s1.session_id = "sid") :=
  ⟨by decide,
   (C5_create_idempotent { conversations := [], states := [] } "sid" "u"
      (by decide) (by simp) (by simp)).1⟩

/-- C6: owner isolation — a lookup with a non-matching owner id fails
closed (not-found), and any storage error during the lookup is also
treated as not-found. -/
theorem C6_owner_isolation (db : DB) (sid u2 : String) (hu2 : u2 ≠ "")
    (howner : ∀ c ∈ db.conversations, c.id = sid → ¬(c.user_id = u2)) :
    get_session db sid (some u2) false = none ∧
    (∀ uid? : Option String, get_session db sid uid? true = none) := by
  constructor
  · simp only [get_session, Bool.false_eq_true, if_false]
    have hconvs : db.conversations.filter
        (fun c => c.id == sid && (if u2 = "" then true else c.user_id == u2)) = [] := by
      rw [List.filter_eq_nil_iff]
      intro c hc hpc
      obtain ⟨h1, h2⟩ := Bool.and_eq_true_iff.mp hpc
      rw [if_neg hu2] at h2
      exact howner c hc (by simpa using h1) (by simpa using h2)
    rw [hconvs]
    have hjoined : ((db.states.filter fun st => st.conversation_id == sid).flatMap
        fun st => ([] : List ConvRow).map fun _ => st) = [] := by
      rw [List.flatMap_eq_nil_iff]
      intro x _
      simp
    rw [hjoined]
    rfl
  · intro uid?
    rfl

/-- Witness for C6: a session created under owner u1 is invisible to
owner u2. -/
theorem C6_owner_isolation_witness :
    (("u2" : String) ≠ "") ∧
    get_session
      { conversations := [{ id := "sid", user_id := "u1" }],
        states := [{ conversation_id := "sid" }] } "sid" (some "u2") false = none :=
  ⟨by decide,
   (C6_owner_isolation
      { conversations := [{ id := "sid", user_id := "u1" }],
        states := [{ conversation_id := "sid" }] } "sid" "u2"
      (by decide) (by intro c hc h1; simp at hc; subst hc; simp)).1⟩

/-- C9: after every successful persist exactly one title-generation task
is scheduled iff `message_count == 2` or `message_count % 10 == 0` (and
never more than one); and when the summarisation call fails or times out
the background task writes the fixed default title "New Conversation"
to the conversation row instead of leaving it null. -/
theorem C9_title_generation (db : DB) (state : SessionState) (uid : String)
    (now : Nat) (convs : List ConvRow) (sid : String) (key : Bool)
    (outcome : GenOutcome) (mc : Int) (fb : Bool)
    (hfail : outcome = GenOutcome.timeout ∨ outcome = GenOutcome.fail) :
    (∃ db' tasks, update_session db state uid now true = some (db', tasks) ∧
      (tasks.length = 1 ↔ ((state.chat_history.length : Int) = 2 ∨
          (state.chat_history.length : Int) % 10 = 0)) ∧
      tasks.length ≤ 1) ∧
    generate_and_update_title convs sid key outcome mc true fb =
      convs.map (fun c => if c.id == sid then
        { c with title := some "New Conversation" } else c) := by
  constructor
  · refine ⟨_, _, rfl, ?_, ?_⟩
    · by_cases hb : ((state.chat_history.length : Int) == 2 ||
          (state.chat_history.length : Int) % 10 == 0) = true
      · rw [if_pos hb]
        simp only [Bool.or_eq_true, beq_iff_eq] at hb
        simpa using hb
      · rw [if_neg hb]
        simp only [Bool.or_eq_true, beq_iff_eq, not_or] at hb
        constructor
        · intro hlen
          exact absurd hlen (by simp)
        · intro hcond
          rcases hcond with h | h
          · exact absurd h hb.1
          · exact absurd h hb.2
    · by_cases hb : ((state.chat_history.length : Int) == 2 ||
          (state.chat_history.length : Int) % 10 == 0) = true
      · rw [if_pos hb]
        simp
      · rw [if_neg hb]
        simp
  · rcases hfail with h | h <;> subst h <;> cases key <;>
      simp [generate_and_update_title, generate_conversation_title]

/-- Witness for C9 on a concrete two-message history and a timed-out
summarisation. -/
theorem C9_title_generation_witness :
    (GenOutcome.timeout = GenOutcome.timeout ∨
      GenOutcome.timeout = GenOutcome.fail) ∧
    ((∃ db' tasks, update_session { conversations := [], states := [] }
          { session_id := "s",
            chat_history := [{ role := "user", content := some "hi" },
                             { role := "agent", content := some "yo" }] }
          "u" 0 true = some (db', tasks) ∧
        (tasks.length = 1 ↔
          ((({ session_id := "s",
               chat_history := [{ role := "user", content := some "hi" },
                                { role := "agent", content := some "yo" }] } :
              SessionState).chat_history.length : Int) = 2 ∨
           (({ session_id := "s",
               chat_history := [{ role := "user", content := some "hi" },
                                { role := "agent", content := some "yo" }] } :
              SessionState).chat_history.length : Int) % 10 = 0)) ∧
        tasks.length ≤ 1) ∧
      generate_and_update_title [{ id := "c", user_id := "u1" }] "c" false
          GenOutcome.timeout 2 true false =
        [{ id := "c", user_id := "u1" }].map (fun c => if c.id == "c" then
          { c with title := some "New Conversation" } else c)) :=
  ⟨Or.inl rfl,
   C9_title_generation { conversations := [], states := [] }
     { session_id := "s",
       chat_history := [{ role := "user", content := some "hi" },
                        { role := "agent", content := some "yo" }] }
     "u" 0 [{ id := "c", user_id := "u1" }] "c" false GenOutcome.timeout 2 false
     (Or.inl rfl)⟩

/-- C10: a lookup with no owner id skips the owner check entirely and
returns the stored state regardless of which owner created the
conversation; the `/action` endpoint's and the `/state/sync` path's
lookups are exactly such ownerless lookups. -/
theorem C10_ownerless_lookup (db : DB) (sid : String) (st : StateRow)
    (conv : ConvRow) (s0 : SessionState)
    (hst : db.states.filter (fun r => r.conversation_id == sid) = [st])
    (hconv : db.conversations.filter (fun c => c.id == sid) = [conv])
    (hhyd : hydrate_session st sid = some s0) :
    get_session db sid none false = some s0 ∧
    execute_action_lookup db sid = some s0 ∧
    sync_state_lookup db sid none = some s0 := by
  have hmain : get_session db sid none false = some s0 := by
    simp only [get_session, Bool.false_eq_true, if_false, Bool.and_true]
    rw [hconv, hst]
    simpa [scalarOneOrNone] using hhyd
  exact ⟨hmain, hmain, hmain⟩

/-- Witness for C10: the state of a conversation owned by "u1" is
readable through the ownerless lookup. -/
theorem C10_ownerless_lookup_witness :
    (({ conversations := [{ id := "sid", user_id := "u1" }],
        states := [{ conversation_id := "sid" }] } : DB).states.filter
          (fun r => r.conversation_id == "sid") = [{ conversation_id := "sid" }]) ∧
    (({ conversations := [{ id := "sid", user_id := "u1" }],
        states := [{ conversation_id := "sid" }] } : DB).conversations.filter
          (fun c => c.id == "sid") = [{ id := "sid", user_id := "u1" }]) ∧
    (hydrate_session { conversation_id := "sid" } "sid" =
      some { session_id := "sid" }) ∧
    get_session
      { conversations := [{ id := "sid", user_id := "u1" }],
        states := [{ conversation_id := "sid" }] } "sid" none false =
      some { session_id := "sid" } :=
  ⟨by simp, by simp, rfl,
   (C10_ownerless_lookup
      { conversations := [{ id := "sid", user_id := "u1" }],
        states := [{ conversation_id := "sid" }] } "sid"
      { conversation_id := "sid" } { id := "sid", user_id := "u1" }
      { session_id := "sid" } (by simp) (by simp) rfl).1⟩

-- Stage-extension lemmas for the streaming loop

/-- A `StageExt` step is in particular a `StageExtA` step. -/
theorem stageExt_weaken {st st' : LoopState} (h : StageExt st st') :
    StageExtA st st' := by
  obtain ⟨l, h1, h2, h3, _⟩ := h
  exact ⟨l, h1, h2, h3⟩

/-- Reflexivity of `StageExt`. -/
theorem stageExt_rfl (st : LoopState) : StageExt st st :=
  ⟨[], by simp, by simp, Or.inl rfl, by simp⟩

/-- Transitivity of `StageExt`. -/
theorem stageExt_trans {a b c : LoopState} (h1 : StageExt a b)
    (h2 : StageExt b c) : StageExt a c := by
  obtain ⟨l1, he1, hd1, hf1, ht1⟩ := h1
  obtain ⟨l2, he2, hd2, hf2, ht2⟩ := h2
  refine ⟨l1 ++ l2, by rw [he2, he1, List.append_assoc], ?_, ?_, ?_⟩
  · intro e he
    rcases List.mem_append.mp he with h | h
    · exact hd1 e h
    · exact hd2 e h
  · rcases hf2 with hsame | ⟨c2, hc2⟩
    · rcases hf1 with hsame1 | ⟨c1, hc1⟩
      · exact Or.inl (hsame.trans hsame1)
      · exact Or.inr ⟨c1, List.mem_append_left _ hc1⟩
    · exact Or.inr ⟨c2, List.mem_append_right _ hc2⟩
  · intro e he
    rcases List.mem_append.mp he with h | h
    · exact ht1 e h
    · exact ht2 e h

/-- Transitivity of `StageExtA`. -/
theorem stageExtA_trans {a b c : LoopState} (h1 : StageExtA a b)
    (h2 : StageExtA b c) : StageExtA a c := by
  obtain ⟨l1, he1, hd1, hf1⟩ := h1
  obtain ⟨l2, he2, hd2, hf2⟩ := h2
  refine ⟨l1 ++ l2, by rw [he2, he1, List.append_assoc], ?_, ?_⟩
  · intro e he
    rcases List.mem_append.mp he with h | h
    · exact hd1 e h
    · exact hd2 e h
  · rcases hf2 with hsame | ⟨c2, hc2⟩
    · rcases hf1 with hsame1 | ⟨c1, hc1⟩
      · exact Or.inl (hsame.trans hsame1)
      · exact Or.inr ⟨c1, List.mem_append_left _ hc1⟩
    · exact Or.inr ⟨c2, List.mem_append_right _ hc2⟩

/-- Folding a `StageExt`-preserving step preserves `StageExt`. -/
theorem foldl_ext {β : Type} (f : LoopState → β → LoopState)
    (hstep : ∀ st b, StageExt st (f st b)) :
    ∀ (l : List β) (st : LoopState), StageExt st (l.foldl f st) := by
  intro l
  induction l with
  | nil => intro st; exact stageExt_rfl st
  | cons b t ih => intro st; exact stageExt_trans (hstep st b) (ih (f st b))

/-- `pushText` appends exactly one `text` event. -/
theorem pushText_ext (st : LoopState) (c : String) :
    StageExt st (pushText st c) := by
  refine ⟨[Event.text c], ?_, ?_, Or.inr ⟨c, by simp⟩, ?_⟩
  · cases hct : st.current_text <;> simp [pushText, hct]
  · intro e he
    simp at he
    subst he
    rfl
  · intro e he
    simp at he
    subst he
    simp [Event.isToolEnd]

/-- Step 1 (content processing) is a `StageExt` step. -/
theorem processContent_ext (st : LoopState) (c : MsgContent) :
    StageExt st (processContent st c) := by
  cases c with
  | empty => exact stageExt_rfl st
  | str s =>
    by_cases hs : s = ""
    · simp only [processContent]
      rw [if_pos hs]
      exact stageExt_rfl st
    · simp only [processContent]
      rw [if_neg hs]
      exact pushText_ext st s
  | parts ps =>
    simp only [processContent]
    apply foldl_ext
    intro st' p
    dsimp only
    by_cases h1 : (p.type == "text") = true
    · rw [if_pos h1]
      by_cases h2 : p.text = ""
      · rw [if_pos h2]
        exact stageExt_rfl st'
      · rw [if_neg h2]
        exact pushText_ext st' p.text
    · rw [if_neg h1]
      by_cases h3 : (p.type == "thinking") = true
      · rw [if_pos h3]
        by_cases h4 : p.thinking = ""
        · rw [if_pos h4]
          exact stageExt_rfl st'
        · rw [if_neg h4]
          refine ⟨[Event.thinking p.thinking], by simp, ?_, Or.inl rfl, ?_⟩
          · intro e he
            simp at he
            subst he
            rfl
          · intro e he
            simp at he
            subst he
            simp [Event.isToolEnd]
      · rw [if_neg h3]
        exact stageExt_rfl st'

/-- Reflexivity of `StageExtA`. -/
theorem stageExtA_rfl (st : LoopState) : StageExtA st st :=
  ⟨[], by simp, by simp, Or.inl rfl⟩

/-- The deduplication branch emits nothing. -/
theorem dedupToolCall_ext (st : LoopState) (tool_id : String) (args : Json) :
    StageExt st (dedupToolCall st tool_id args) := by
  unfold dedupToolCall
  cases hl : st.tool_calls_map.lookup tool_id with
  | none => exact stageExt_rfl st
  | some slot =>
    dsimp only
    cases hp : st.tool_parts[slot]? with
    | none => exact stageExt_rfl st
    | some part =>
      dsimp only
      by_cases ha : (args.pyTruthy && !args.isEmptyObj) = true
      · rw [if_pos ha]
        exact ⟨[], by simp, by simp, Or.inl rfl, by simp⟩
      · rw [if_neg ha]
        exact stageExt_rfl st

/-- Step 2 appends at most one `tool_start` event. -/
theorem processToolCall_ext (pyH : Json → Int) (st : LoopState)
    (tc : ToolCallIn) : StageExt st (processToolCall pyH st tc) := by
  simp only [processToolCall]
  split
  · exact stageExt_rfl st
  · split
    · exact dedupToolCall_ext st _ tc.args
    · refine ⟨[Event.tool_start (toolCallId pyH tc) tc.name tc.args], rfl, ?_,
        Or.inl rfl, ?_⟩
      · intro e he
        simp at he
        subst he
        rfl
      · intro e he
        simp at he
        subst he
        simp [Event.isToolEnd]

/-- Argument buffering appends at most one `tool_start` event. -/
theorem bufferToolArgs_ext (parseJ : String → Option Json) (st : LoopState)
    (tool_id chArgs : String) :
    StageExt st (bufferToolArgs parseJ st tool_id chArgs) := by
  simp only [bufferToolArgs]
  cases hp : parseJ ((st.args_buffer.lookup tool_id).getD "" ++ chArgs) with
  | none => exact ⟨[], by simp, by simp, Or.inl rfl, by simp⟩
  | some parsed =>
    dsimp only
    cases hl : st.tool_calls_map.lookup tool_id with
    | none => exact ⟨[], by simp, by simp, Or.inl rfl, by simp⟩
    | some slot =>
      dsimp only
      cases hq : st.tool_parts[slot]? with
      | none => exact ⟨[], by simp, by simp, Or.inl rfl, by simp⟩
      | some part =>
        dsimp only
        refine ⟨[Event.tool_start tool_id part.tool_name parsed], rfl, ?_,
          Or.inl rfl, ?_⟩
        · intro e he
          simp at he
          subst he
          rfl
        · intro e he
          simp at he
          subst he
          simp [Event.isToolEnd]

/-- Step 2.5 appends at most one `tool_start` event. -/
theorem processToolChunk_ext (parseJ : String → Option Json) (st : LoopState)
    (ch : ToolCallChunk) : StageExt st (processToolChunk parseJ st ch) := by
  simp only [processToolChunk]
  split
  · cases hg : st.active_tool_calls.getLast? with
    | none => exact stageExt_rfl st
    | some pair =>
      rcases pair with ⟨tool_id, nm⟩
      dsimp only
      split
      · exact stageExt_rfl st
      · exact bufferToolArgs_ext parseJ st tool_id ch.args
  · exact stageExt_rfl st

/-- Recording a tool result does not touch the event list. -/
theorem recordToolEnd_events (st : LoopState) (tid r s : String) :
    (recordToolEnd st tid r s).events = st.events := by
  unfold recordToolEnd
  cases hl : st.tool_calls_map.lookup tid with
  | none => rfl
  | some slot =>
    dsimp only
    cases hp : st.tool_parts[slot]? with
    | none => rfl
    | some part => rfl

/-- Recording a tool result does not touch the accumulated response. -/
theorem recordToolEnd_full_response (st : LoopState) (tid r s : String) :
    (recordToolEnd st tid r s).full_response = st.full_response := by
  unfold recordToolEnd
  cases hl : st.tool_calls_map.lookup tid with
  | none => rfl
  | some slot =>
    dsimp only
    cases hp : st.tool_parts[slot]? with
    | none => rfl
    | some part => rfl

/-- A lowercase prefix match implies a substring match, so the
`startswith` disjunct of the error test is subsumed by the `in`
disjunct. -/
theorem pyStartsWith_le_contains (hay pat : String)
    (h : pyStartsWith hay pat = true) : pyStrContains hay pat = true := by
  unfold pyStartsWith at h
  unfold pyStrContains
  exact decide_eq_true (of_decide_eq_true h).isInfix

/-- The status attached to a tool result is "error" exactly when the
emitted result text contains "error" case-insensitively — as long as the
content is not a list (this program's tools return strings). -/
theorem toolEndOk_result (pyR : List RawPart → String) (c : MsgContent)
    (tid name : String)
    (hok : match c with | MsgContent.parts _ => False | _ => True) :
    toolEndOk (Event.tool_end tid name (toolResultStr pyR c)
      (if toolResultIsError c then "error" else "success")) := by
  cases c with
  | parts ps => exact absurd hok (by simp)
  | empty =>
    simp only [toolResultStr, toolResultIsError, toolEndOk]
    constructor
    · intro h
      exact absurd h (by decide)
    · intro h
      exact absurd h (by decide)
  | str s =>
    simp only [toolResultStr, toolResultIsError, toolEndOk]
    by_cases hc : pyStrContains (pyLower s) "error" = true
    · simp only [hc, Bool.or_true, if_true]
    · have hp : pyStartsWith (pyLower s) "error" = false := by
        cases hps : pyStartsWith (pyLower s) "error"
        · rfl
        · exact absurd (pyStartsWith_le_contains _ _ hps) hc
      have hcf : pyStrContains (pyLower s) "error" = false := by
        cases hcc : pyStrContains (pyLower s) "error"
        · rfl
        · exact absurd hcc hc
      simp only [hp, hcf, Bool.or_self, Bool.or_false, if_false]
      constructor
      · intro h
        exact absurd h (by decide)
      · intro h
        exact absurd h (by simp)

/-- Step 3 appends exactly one `tool_end` event (or nothing), never a
`done` or `text` event. -/
theorem processToolResult_extA (pyR : List RawPart → String) (st : LoopState)
    (m : MsgObj) : StageExtA st (processToolResult pyR st m) := by
  simp only [processToolResult]
  by_cases ht : (m.type == some "tool") = true
  · rw [if_pos ht]
    cases htc : m.tool_call_id with
    | none => exact stageExtA_rfl st
    | some tid =>
      dsimp only
      by_cases h0 : tid = ""
      · rw [if_pos h0]
        exact stageExtA_rfl st
      · rw [if_neg h0]
        refine ⟨[Event.tool_end tid ((st.active_tool_calls.lookup tid).getD "unknown")
          (toolResultStr pyR m.content)
          (if toolResultIsError m.content then "error" else "success")], ?_, ?_, ?_⟩
        · show (recordToolEnd st tid _ _).events ++ _ = _
          rw [recordToolEnd_events]
        · intro e he
          simp at he
          subst he
          rfl
        · exact Or.inl (recordToolEnd_full_response st tid _ _)
  · rw [if_neg ht]
    exact stageExtA_rfl st

/-- Step 3, strengthened: within this program's tool scope the appended
`tool_end` event satisfies the status/result relation. -/
theorem processToolResult_ext (pyR : List RawPart → String) (st : LoopState)
    (m : MsgObj)
    (hm : m.type = some "tool" →
      match m.content with | MsgContent.parts _ => False | _ => True) :
    StageExt st (processToolResult pyR st m) := by
  simp only [processToolResult]
  by_cases ht : (m.type == some "tool") = true
  · rw [if_pos ht]
    have htype : m.type = some "tool" := by simpa using ht
    cases htc : m.tool_call_id with
    | none => exact stageExt_rfl st
    | some tid =>
      dsimp only
      by_cases h0 : tid = ""
      · rw [if_pos h0]
        exact stageExt_rfl st
      · rw [if_neg h0]
        refine ⟨[Event.tool_end tid ((st.active_tool_calls.lookup tid).getD "unknown")
          (toolResultStr pyR m.content)
          (if toolResultIsError m.content then "error" else "success")], ?_, ?_, ?_, ?_⟩
        · show (recordToolEnd st tid _ _).events ++ _ = _
          rw [recordToolEnd_events]
        · intro e he
          simp at he
          subst he
          rfl
        · exact Or.inl (recordToolEnd_full_response st tid _ _)
        · intro e he
          simp at he
          subst he
          intro _
          exact toolEndOk_result pyR m.content tid _ (hm htype)
  · rw [if_neg ht]
    exact stageExt_rfl st

/-- The loop body for one messages chunk is a `StageExtA` step. -/
theorem processMessage_extA (pyH : Json → Int) (parseJ : String → Option Json)
    (pyR : List RawPart → String) (st : LoopState) (m : MsgObj) :
    StageExtA st (processMessage pyH parseJ pyR st m) := by
  simp only [processMessage]
  apply stageExtA_trans (stageExt_weaken (processContent_ext st m.content))
  apply stageExtA_trans (b := if m.tool_calls.isEmpty then processContent st m.content
    else m.tool_calls.foldl (processToolCall pyH)
      { processContent st m.content with current_text := none })
  · by_cases he : m.tool_calls.isEmpty = true
    · rw [if_pos he]
      exact stageExtA_rfl _
    · rw [if_neg he]
      apply stageExtA_trans
        (b := { processContent st m.content with current_text := none })
      · exact ⟨[], by simp, by simp, Or.inl rfl⟩
      · exact stageExt_weaken (foldl_ext _ (fun st' b => processToolCall_ext pyH st' b) _ _)
  · apply stageExtA_trans
      (stageExt_weaken (foldl_ext _ (fun st' b => processToolChunk_ext parseJ st' b) m.tool_call_chunks _))
    exact processToolResult_extA pyR _ m

/-- The loop body for one messages chunk is a `StageExt` step within the
string-tool-result scope. -/
theorem processMessage_ext (pyH : Json → Int) (parseJ : String → Option Json)
    (pyR : List RawPart → String) (st : LoopState) (m : MsgObj)
    (hm : m.type = some "tool" →
      match m.content with | MsgContent.parts _ => False | _ => True) :
    StageExt st (processMessage pyH parseJ pyR st m) := by
  simp only [processMessage]
  apply stageExt_trans (processContent_ext st m.content)
  apply stageExt_trans (b := if m.tool_calls.isEmpty then processContent st m.content
    else m.tool_calls.foldl (processToolCall pyH)
      { processContent st m.content with current_text := none })
  · by_cases he : m.tool_calls.isEmpty = true
    · rw [if_pos he]
      exact stageExt_rfl _
    · rw [if_neg he]
      apply stageExt_trans
        (b := { processContent st m.content with current_text := none })
      · exact ⟨[], by simp, by simp, Or.inl rfl, by simp⟩
      · exact foldl_ext _ (fun st' b => processToolCall_ext pyH st' b) _ _
  · apply stageExt_trans
      (foldl_ext _ (fun st' b => processToolChunk_ext parseJ st' b) m.tool_call_chunks _)
    exact processToolResult_ext pyR _ m hm

/-- One loop iteration is a `StageExtA` step. -/
theorem processItem_extA (pyH : Json → Int) (parseJ : String → Option Json)
    (pyR : List RawPart → String) (st : LoopState) (it : StreamItem) :
    StageExtA st (processItem pyH parseJ pyR st it) := by
  cases it with
  | custom a =>
    refine ⟨[Event.action a], rfl, ?_, Or.inl rfl⟩
    intro e he
    simp at he
    subst he
    rfl
  | message m => exact processMessage_extA pyH parseJ pyR st m

/-- One loop iteration is a `StageExt` step within the
string-tool-result scope. -/
theorem processItem_ext (pyH : Json → Int) (parseJ : String → Option Json)
    (pyR : List RawPart → String) (st : LoopState) (it : StreamItem)
    (hit : toolMsgContentOk it) :
    StageExt st (processItem pyH parseJ pyR st it) := by
  cases it with
  | custom a =>
    refine ⟨[Event.action a], rfl, ?_, Or.inl rfl, ?_⟩
    · intro e he
      simp at he
      subst he
      rfl
    · intro e he
      simp at he
      subst he
      simp [Event.isToolEnd]
  | message m => exact processMessage_ext pyH parseJ pyR st m hit

/-- The whole streaming loop is a `StageExtA` step. -/
theorem loop_extA (pyH : Json → Int) (parseJ : String → Option Json)
    (pyR : List RawPart → String) :
    ∀ (items : List StreamItem) (st : LoopState),
      StageExtA st (items.foldl (processItem pyH parseJ pyR) st) := by
  intro items
  induction items with
  | nil => intro st; exact stageExtA_rfl st
  | cons it rest ih =>
    intro st
    exact stageExtA_trans (processItem_extA pyH parseJ pyR st it)
      (ih (processItem pyH parseJ pyR st it))

/-- The whole streaming loop is a `StageExt` step within the
string-tool-result scope. -/
theorem loop_ext (pyH : Json → Int) (parseJ : String → Option Json)
    (pyR : List RawPart → String) :
    ∀ (items : List StreamItem), (∀ it ∈ items, toolMsgContentOk it) →
      ∀ st : LoopState, StageExt st (items.foldl (processItem pyH parseJ pyR) st) := by
  intro items
  induction items with
  | nil => intro _ st; exact stageExt_rfl st
  | cons it rest ih =>
    intro hits st
    refine stageExt_trans
      (processItem_ext pyH parseJ pyR st it (hits it (List.mem_cons_self it rest))) ?_
    exact ih (fun x hx => hits x (List.mem_cons_of_mem it hx))
      (processItem pyH parseJ pyR st it)

/-- The error conversion appends at most one text event. -/
theorem applyStreamError_ext (st : LoopState) (se : Bool) :
    StageExt st (applyStreamError st se) := by
  cases se with
  | false =>
    simp only [applyStreamError, Bool.false_eq_true, if_false]
    exact stageExt_rfl st
  | true =>
    refine ⟨[Event.text "Sorry, I had a little hiccup. Try again? 🎧"], rfl, ?_,
      Or.inr ⟨"Sorry, I had a little hiccup. Try again? 🎧", by simp⟩, ?_⟩
    · intro e he
      simp at he
      subst he
      rfl
    · intro e he
      simp at he
      subst he
      simp [Event.isToolEnd]

/-- The no-response fallback appends at most one text event. -/
theorem applyFallback_ext (st : LoopState) : StageExt st (applyFallback st) := by
  unfold applyFallback
  by_cases hf : st.full_response = ""
  · rw [if_pos hf]
    refine ⟨[Event.text "I'm here to help with your music!"], rfl, ?_,
      Or.inr ⟨"I'm here to help with your music!", by simp⟩, ?_⟩
    · intro e he
      simp at he
      subst he
      rfl
    · intro e he
      simp at he
      subst he
      simp [Event.isToolEnd]
  · rw [if_neg hf]
    exact stageExt_rfl st

/-- After the error conversion and the fallback, the stream always holds
at least one text event. -/
theorem st2_has_text (st : LoopState) (se : Bool)
    (h0 : st.full_response ≠ "" → ∃ c, Event.text c ∈ st.events) :
    ∃ c, Event.text c ∈ (applyFallback (applyStreamError st se)).events := by
  cases se with
  | false =>
    simp only [applyStreamError, Bool.false_eq_true, if_false]
    unfold applyFallback
    by_cases hf : st.full_response = ""
    · rw [if_pos hf]
      exact ⟨"I'm here to help with your music!", by simp⟩
    · rw [if_neg hf]
      exact h0 hf
  | true =>
    simp only [applyStreamError, if_true]
    unfold applyFallback
    dsimp only
    rw [if_neg (by decide)]
    exact ⟨"Sorry, I had a little hiccup. Try again? 🎧", by simp⟩

/-- The upsert always leaves a row carrying the session id and the
serialized chat history. -/
theorem upsert_state_row_mem (db : DB) (sid : String) (msgs : List Json)
    (ctx : Json) (now : Nat) :
    ∃ row ∈ (upsert_state_row db sid msgs ctx now).states,
      row.conversation_id = sid ∧ row.messages = msgs := by
  unfold upsert_state_row
  by_cases hany : db.states.any (fun st => st.conversation_id == sid) = true
  · rw [if_pos hany]
    obtain ⟨x, hx, hpx⟩ := List.any_eq_true.mp hany
    refine ⟨{ x with messages := msgs, context := ctx, last_synced_at := some now },
      ?_, by simpa using hpx, rfl⟩
    have himg : (fun st : StateRow =>
        if st.conversation_id == sid then
          { st with messages := msgs, context := ctx, last_synced_at := some now }
        else st) x =
        { x with messages := msgs, context := ctx, last_synced_at := some now } := by
      dsimp only
      rw [if_pos hpx]
    exact himg ▸ List.mem_map_of_mem _ hx
  · rw [if_neg hany]
    exact ⟨⟨sid, msgs, ctx, some now⟩, by simp, rfl, rfl⟩

/-- C3 (amended): for every chat turn whose finalization persist
succeeds — including turns whose model invocation or streaming raises —
the stream holds at least one text event, exactly one terminal `done`
event, the user's message and an assistant message are appended to the
chat history, and the history is persisted to the state row. -/
theorem C3_turn_graceful (pyH : Json → Int) (parseJ : String → Option Json)
    (pyR : List RawPart → String) (db : DB) (session : SessionState)
    (uid message : String) (items : List StreamItem) (streamErr : Bool)
    (now : Nat) :
    ∃ r, run_turn pyH parseJ pyR db session uid message items streamErr true now = r ∧
      (∃ c, Event.text c ∈ r.events) ∧
      (r.events.filter Event.isDone).length = 1 ∧
      (∃ agentMsg : Message, agentMsg.role = "agent" ∧
        r.session.chat_history = session.chat_history ++
          [⟨"user", some message, none, now⟩, agentMsg]) ∧
      r.persisted = true ∧
      (∃ row ∈ r.db.states, row.conversation_id = session.session_id ∧
        row.messages = r.session.chat_history.map dumpMessage) := by
  obtain ⟨l, hev, hdone, hfr⟩ := loop_extA pyH parseJ pyR items {}
  have h0 : (items.foldl (processItem pyH parseJ pyR) {}).full_response ≠ "" →
      ∃ c, Event.text c ∈ (items.foldl (processItem pyH parseJ pyR) {}).events := by
    intro hne
    rcases hfr with heq | ⟨c, hc⟩
    · exact absurd heq hne
    · refine ⟨c, ?_⟩
      rw [hev]
      exact List.mem_append_right _ hc
  have hA2 : StageExtA ({} : LoopState)
      (applyFallback (applyStreamError
        (items.foldl (processItem pyH parseJ pyR) {}) streamErr)) := by
    refine stageExtA_trans (loop_extA pyH parseJ pyR items {}) ?_
    exact stageExtA_trans
      (stageExt_weaken (applyStreamError_ext _ streamErr))
      (stageExt_weaken (applyFallback_ext _))
  obtain ⟨l2, hev2, hdone2, _⟩ := hA2
  have hfil : (applyFallback (applyStreamError
      (items.foldl (processItem pyH parseJ pyR) {}) streamErr)).events.filter
        Event.isDone = [] := by
    rw [hev2]
    simp only [List.nil_append]
    rw [List.filter_eq_nil_iff]
    intro e he
    simp [hdone2 e he]
  refine ⟨_, rfl, ?_, ?_, ?_, ?_, ?_⟩
  · simp only [run_turn, update_session, Bool.not_true, Bool.false_eq_true,
      if_false]
    obtain ⟨c, hc⟩ := st2_has_text _ streamErr h0
    exact ⟨c, List.mem_append_left _ hc⟩
  · simp only [run_turn, update_session, Bool.not_true, Bool.false_eq_true,
      if_false]
    rw [List.filter_append, hfil]
    rfl
  · simp only [run_turn, update_session, Bool.not_true, Bool.false_eq_true,
      if_false]
    by_cases hemp : (applyFallback (applyStreamError
        (items.foldl (processItem pyH parseJ pyR) {}) streamErr)).message_parts.isEmpty = true
    · rw [if_pos hemp]
      refine ⟨⟨"agent", some (applyFallback (applyStreamError
        (items.foldl (processItem pyH parseJ pyR) {}) streamErr)).full_response,
        none, now⟩, rfl, ?_⟩
      simp [SessionState.add_message]
    · rw [if_neg hemp]
      refine ⟨⟨"agent", none, some ((applyFallback (applyStreamError
        (items.foldl (processItem pyH parseJ pyR) {}) streamErr)).message_parts.map
          (materializePart (applyFallback (applyStreamError
            (items.foldl (processItem pyH parseJ pyR) {}) streamErr)).tool_parts)),
        now⟩, rfl, ?_⟩
      simp [SessionState.add_message]
  · simp only [run_turn, update_session, Bool.not_true, Bool.false_eq_true,
      if_false]
  · have hsid : ∀ (b : Bool) (x y : Option String) (p q : Option (List PartDict)),
        ((if b = true then
            (session.add_message "user" (some message) none now).add_message
              "agent" x p now
          else
            (session.add_message "user" (some message) none now).add_message
              "agent" y q now)).session_id = session.session_id := by
      intro b x y p q
      by_cases hb : b = true
      · rw [if_pos hb]
        rfl
      · rw [if_neg hb]
        rfl
    simp only [run_turn, update_session, Bool.not_true, Bool.false_eq_true,
      if_false]
    rw [update_conv_meta_states, hsid]
    exact upsert_state_row_mem db _ _ _ now

/-- Counterexample to C3 as stated: on a turn whose finalization persist
raises, the stream ends with the generic error chunk and no `done` event
is ever emitted, and nothing is persisted. -/
theorem C3_counterexample_persist_failure :
    (run_turn (fun _ => 0) (fun _ => none) (fun _ => "")
        { conversations := [], states := [] } { session_id := "s" } "u" "hi"
        [] false false 0).events =
      [Event.text "I'm here to help with your music!",
       Event.errorChunk "Sorry, I had a technical difficulty. Try again? 🎧"] ∧
    ((run_turn (fun _ => 0) (fun _ => none) (fun _ => "")
        { conversations := [], states := [] } { session_id := "s" } "u" "hi"
        [] false false 0).events.filter Event.isDone).length = 0 ∧
    (run_turn (fun _ => 0) (fun _ => none) (fun _ => "")
        { conversations := [], states := [] } { session_id := "s" } "u" "hi"
        [] false false 0).persisted = false := by
  refine ⟨rfl, rfl, rfl⟩

/-- C8: every `tool_end` event emitted by a chat turn carries status
"error" exactly when its result text contains the token "error"
case-insensitively — within the scope of this program's tools, whose
results are strings. -/
theorem C8_tool_end_status (pyH : Json → Int) (parseJ : String → Option Json)
    (pyR : List RawPart → String) (db : DB) (session : SessionState)
    (uid message : String) (items : List StreamItem) (streamErr dbOk : Bool)
    (now : Nat) (hitems : ∀ it ∈ items, toolMsgContentOk it) :
    ∀ id name result status,
      Event.tool_end id name result status ∈
        (run_turn pyH parseJ pyR db session uid message items streamErr dbOk
          now).events →
      (status = "error" ↔ pyStrContains (pyLower result) "error" = true) := by
  intro id name result status hmem
  have hB : StageExt ({} : LoopState)
      (applyFallback (applyStreamError
        (items.foldl (processItem pyH parseJ pyR) {}) streamErr)) := by
    refine stageExt_trans (loop_ext pyH parseJ pyR items hitems {}) ?_
    exact stageExt_trans (applyStreamError_ext _ streamErr) (applyFallback_ext _)
  obtain ⟨l2, hev2, _, _, hends⟩ := hB
  have hin : Event.tool_end id name result status ∈
      (applyFallback (applyStreamError
        (items.foldl (processItem pyH parseJ pyR) {}) streamErr)).events := by
    cases dbOk with
    | true =>
      simp only [run_turn, update_session, Bool.not_true, Bool.false_eq_true,
        if_false] at hmem
      rcases List.mem_append.mp hmem with h | h
      · exact h
      · simp at h
    | false =>
      simp only [run_turn, update_session, Bool.not_false, if_true] at hmem
      rcases List.mem_append.mp hmem with h | h
      · exact h
      · simp at h
  rw [hev2] at hin
  simp only [List.nil_append] at hin
  have := hends _ hin rfl
  exact this

/-- Witness for C8 on a concrete turn containing one failing tool
result. -/
theorem C8_tool_end_status_witness :
    (∀ it ∈ [StreamItem.message
        { content := MsgContent.str "Error: nope", type := some "tool",
          tool_call_id := some "t1" }], toolMsgContentOk it) ∧
    (∀ id name result status,
      Event.tool_end id name result status ∈
        (run_turn (fun _ => 0) (fun _ => none) (fun _ => "")
          { conversations := [], states := [] } { session_id := "s" } "u" "hi"
          [StreamItem.message
            { content := MsgContent.str "Error: nope", type := some "tool",
              tool_call_id := some "t1" }] false true 0).events →
      (status = "error" ↔ pyStrContains (pyLower result) "error" = true)) := by
  constructor
  · intro it hit
    simp only [List.mem_singleton] at hit
    subst hit
    intro _
    simp [toolMsgContentOk]
  · exact C8_tool_end_status (fun _ => 0) (fun _ => none) (fun _ => "")
      { conversations := [], states := [] } { session_id := "s" } "u" "hi"
      [StreamItem.message
        { content := MsgContent.str "Error: nope", type := some "tool",
          tool_call_id := some "t1" }] false true 0
      (by
        intro it hit
        simp only [List.mem_singleton] at hit
        subst hit
        intro _
        simp [toolMsgContentOk])
